import Mathlib

/-!
# ogre_vis::VisualizationPanel

A shallow embedding of `ogre_visualizer/src/ogre_visualizer/visualization_panel.cpp`.

The panel is GUI glue: every handler reads a few members, calls into a collaborator
(manager, camera, toolbar, render window, dialog) and updates a few members.  The
embedding therefore consists of

* the members of the panel as a record (`VisualizationPanel`);
* the calls the panel makes into its collaborators, recorded in order in `calls`;
* what the collaborators answer, which is an input of the handler that asks;
* a small model of the manager's registry of visualizers and tools, which is the
  only collaborator whose answers depend on what the panel asked it to do before.

Nullable pointers are `Option`; dereferencing a null pointer and a failed
`ROS_ASSERT` end the handler with a `Halt`.
-/

namespace ogre_vis

/-! ## Enumerations and pointers -/

/-- The enum `Views::View` (lines 54-63). -/
inductive View where
  | Orbit
  | FPS
  | TopDownOrtho
  deriving DecidableEq, Repr

/-- Value of an enumerator of `Views::View`: no initialisers, so they count from 0. -/
def View.toInt : View → Int
  | .Orbit => 0
  | .FPS => 1
  | .TopDownOrtho => 2

/-- The three camera objects the constructor allocates with `new` (lines 119-132),
named after the members that point at them.  A `CameraBase*` is an `Option Camera`,
`none` being `NULL`. -/
inductive Camera where
  | fps_camera_
  | orbit_camera_
  | top_down_ortho_
  deriving DecidableEq, Repr

/-- Address of a `Tool` object; a `Tool*` is an `Option ToolPtr`. -/
abbrev ToolPtr := Nat

/-- Address of a `VisualizerBase` object; a `VisualizerBase*` is an
`Option VisualizerPtr`. -/
abbrev VisualizerPtr := Nat

/-- The values of `Tool::Render` and `Tool::Finished`.  They are declared in
`tools/tool.h`, which is not among the sources, so they are parameters. -/
structure ToolFlags where
  Render : Int
  Finished : Int
  deriving DecidableEq, Repr

/-- The wxWidgets constant `wxOK` (`wx/defs.h`). -/
def wxOK : Int := 4

/-! ## Events of the toolkit -/

/-- Event types that occur in this file. -/
inductive wxEventType where
  | EVT_RENDER
  | wxEVT_COMMAND_TOOL_CLICKED
  | wxEVT_COMMAND_CHOICE_SELECTED
  | wxEVT_COMMAND_BUTTON_CLICKED
  deriving DecidableEq, Repr

/-- A `wxCommandEvent`: its type and `GetId()`. -/
structure wxCommandEvent where
  type : wxEventType
  id : Int
  deriving DecidableEq, Repr

/-- A `wxMouseEvent`: `GetX()` and `GetY()`. -/
structure wxMouseEvent where
  x : Int
  y : Int
  deriving DecidableEq, Repr

/-- A `PropertyBase`: `getUserData()`, which for the property of a visualizer is
the visualizer. -/
structure PropertyBase where
  user_data : Option VisualizerPtr
  deriving DecidableEq, Repr

/-- A `wxPGProperty`: `GetClientData()`. -/
structure wxPGProperty where
  client_data : Option PropertyBase
  deriving DecidableEq, Repr

/-- A `wxPropertyGridEvent`: `GetProperty()`. -/
structure wxPropertyGridEvent where
  property : Option wxPGProperty
  deriving DecidableEq, Repr

/-- What one `dialog.ShowModal()` of the `NewDisplayDialog` produces: the return
code, and the two fields the handler reads back from the dialog afterwards. -/
structure DialogOutcome where
  ShowModal : Int
  getTypeName : String
  getVisualizerName : String
  deriving DecidableEq, Repr

/-- The `VisualizerBase` fields `onVisualizerStateChanged` reads. -/
structure VisualizerBase where
  getName : String
  getType : String
  isEnabled : Bool
  deriving DecidableEq, Repr

/-! ## The manager -/

/-- Modelled from the spec: the entry the manager keeps for one registered
visualizer ("Visualizer: a manager-registered display object").  The last two
fields are the third and fourth argument of `createVisualizer`. -/
structure VisualizerInfo where
  ptr : VisualizerPtr
  name : String
  type : String
  enabled : Bool
  allow_deletion : Bool
  deriving DecidableEq, Repr

/-- Modelled from the spec: the `VisualizationManager`, whose header and
implementation are not among the sources ("create/remove/query visualizers,
get/set current tool, registered type list").  It is a registry of visualizers, a
list of registered type names, a list of tools, and the current and default tool. -/
structure VisualizationManager where
  visualizers_ : List VisualizerInfo
  registered_types_ : List String
  tools_ : List ToolPtr
  current_tool_ : Option ToolPtr
  default_tool_ : Option ToolPtr
  deriving DecidableEq, Repr

/-- Modelled from the spec: `getVisualizer( name )` queries the registry by
name; `none` is `NULL`. -/
def VisualizationManager.getVisualizer (m : VisualizationManager) (name : String) :
    Option VisualizerPtr :=
  (m.visualizers_.find? (fun i => i.name == name)).map (fun i => i.ptr)

/-- Modelled from the spec: `isValidVisualizer( visualizer )`: the pointer is
that of a registered ("live, manager-registered") visualizer. -/
def VisualizationManager.isValidVisualizer (m : VisualizationManager)
    (visualizer : VisualizerPtr) : Bool :=
  m.visualizers_.any (fun i => i.ptr == visualizer)

/-- Modelled from the spec: `isDeletionAllowed( visualizer )`: the visualizer
is registered and was created with deletion allowed. -/
def VisualizationManager.isDeletionAllowed (m : VisualizationManager)
    (visualizer : VisualizerPtr) : Bool :=
  m.visualizers_.any (fun i => i.ptr == visualizer && i.allow_deletion)

/-- Modelled from the spec: `removeVisualizer( visualizer )` takes the
visualizer out of the registry (and destroys it). -/
def VisualizationManager.removeVisualizer (m : VisualizationManager)
    (visualizer : VisualizerPtr) : VisualizationManager :=
  { m with visualizers_ := m.visualizers_.filter (fun i => !(i.ptr == visualizer)) }

/-- Modelled from the spec: the address `new` gives the next visualizer, which
differs from the address of every live one. -/
def VisualizationManager.freshPtr (m : VisualizationManager) : VisualizerPtr :=
  (m.visualizers_.map (fun i => i.ptr)).foldr max 0 + 1

/-- Modelled from the spec: `createVisualizer( type, name, enabled,
allow_deletion )` registers a new visualizer and returns it; it returns `NULL`,
and registers nothing, when the type is not a registered one (the "null visualizer
after creation" that the caller asserts against). -/
def VisualizationManager.createVisualizer (m : VisualizationManager) (type name : String)
    (enabled allow_deletion : Bool) : Option VisualizerPtr × VisualizationManager :=
  if type ∈ m.registered_types_ then
    (some m.freshPtr,
     { m with visualizers_ := m.visualizers_ ++
        [{ ptr := m.freshPtr, name := name, type := type, enabled := enabled,
           allow_deletion := allow_deletion }] })
  else
    (none, m)

/-- Modelled from the spec: `getTool( index )`, the tool at an index of the
tool list; `NULL` outside it. -/
def VisualizationManager.getTool (m : VisualizationManager) (index : Int) : Option ToolPtr :=
  if index < 0 then none else m.tools_[index.toNat]?

/-- Modelled from the spec: `setCurrentTool( tool )` ("get/set current tool"). -/
def VisualizationManager.setCurrentTool (m : VisualizationManager) (tool : Option ToolPtr) :
    VisualizationManager :=
  { m with current_tool_ := tool }

/-! ## Calls into the collaborators -/

/-- One call the panel makes into a collaborator, with its arguments (and, for a
query, the answer). -/
inductive Call where
  /-- The call `target->setFrom( source )` on a camera. -/
  | setFrom (target : Camera) (source : Option Camera)
  /-- The call `render_panel_->getViewport()->setCamera( c->getOgreCamera() )`. -/
  | viewport_setCamera (c : Camera)
  /-- The call `render_panel_->setCamera( c->getOgreCamera() )`. -/
  | render_panel_setCamera (c : Camera)
  /-- The call `render_panel_->Refresh()`. -/
  | Refresh
  /-- The call `wxPostEvent( this, event )`. -/
  | wxPostEvent (event : wxCommandEvent)
  /-- The call `tools_->AddRadioTool( id, label, ... )`. -/
  | AddRadioTool (id : Int) (label : String)
  /-- The call `tools_->ToggleTool( id, toggle )`. -/
  | ToggleTool (id : Int) (toggle : Bool)
  /-- The call `manager_->setCurrentTool( tool )`. -/
  | setCurrentTool (tool : Option ToolPtr)
  /-- The call `tool->processMouseEvent( event, last_x, last_y )`. -/
  | processMouseEvent (tool : ToolPtr) (event : wxMouseEvent) (last_x last_y : Int)
  /-- The call `manager_->getPropertyManager()->propertyChanging( event )`. -/
  | propertyChanging (event : wxPropertyGridEvent)
  /-- The call `manager_->getPropertyManager()->propertyChanged( event )`. -/
  | propertyChanged (event : wxPropertyGridEvent)
  /-- The call `manager_->getRegisteredTypes( types )` and the dialog built from them. -/
  | NewDisplayDialog (types : List String)
  /-- The call `dialog.ShowModal()` and its return code. -/
  | ShowModal (code : Int)
  /-- The call `manager_->getVisualizer( name )` and its answer. -/
  | getVisualizer (name : String) (answer : Option VisualizerPtr)
  /-- The call `wxMessageBox( message, caption, ... )`. -/
  | wxMessageBox (message caption : String)
  /-- The call `manager_->createVisualizer( type, name, enabled, allow_deletion )`. -/
  | createVisualizer (type name : String) (enabled allow_deletion : Bool)
  /-- The call `manager_->removeVisualizer( visualizer )`. -/
  | removeVisualizer (visualizer : VisualizerPtr)
  /-- The call `property->SetCell( 0, cell )` for the category of that name, and
  `cell->SetBgCol( wxColour( r, g, b ) )`. -/
  | SetCell (category_name : String) (r g b : Nat)
  deriving DecidableEq, Repr

/-! ## The panel -/

/-- How a handler can end without returning. -/
inductive Halt where
  /-- A member function was called through a null pointer. -/
  | null_dereference
  /-- A `ROS_ASSERT` failed. -/
  | assertion_failed
  /-- The modal dialog is open and no further answer was given to it. -/
  | dialog_open
  deriving DecidableEq, Repr

/-- The members of `VisualizationPanel` and the state of the widgets it owns. -/
structure VisualizationPanel where
  /-- Member `current_camera_`. -/
  current_camera_ : Option Camera
  /-- Member `mouse_x_`. -/
  mouse_x_ : Int
  /-- Member `mouse_y_`. -/
  mouse_y_ : Int
  /-- Member `selected_visualizer_`. -/
  selected_visualizer_ : Option VisualizerPtr
  /-- Member `manager_`. -/
  manager_ : VisualizationManager
  /-- The entries of the choice `views_`. -/
  views_items_ : List String
  /-- The selection of the choice: `views_->GetSelection()`. -/
  views_selection_ : Int
  /-- Whether the button `delete_display_` is enabled. -/
  delete_display_ : Bool
  /-- The toolbar `tools_`: the labels of its tools, `GetToolsCount()` being the length. -/
  tools_ : List String
  /-- The camera attached to the viewport of `render_panel_`. -/
  render_panel_camera_ : Option Camera
  /-- The window id: `GetId()`. -/
  id_ : Int
  /-- The events posted to the panel and not yet dispatched. -/
  pending_ : List wxCommandEvent
  /-- The calls made so far, oldest first. -/
  calls : List Call
  deriving DecidableEq, Repr

/-! ## Construction -/

/-- The constructor `VisualizationPanel::VisualizationPanel` (lines 71-139), under a
name that does not clash with the record.  `manager` is the manager as
`new VisualizationManager( this )` and `manager_->initialize()` leave it, `tools`
the toolbar as the generated base class and that initialisation leave it, `id` the
window id. -/
def VisualizationPanel.construct (manager : VisualizationManager)
    (tools : List String) (id : Int) : VisualizationPanel :=
  -- the member initialisers (lines 73-76), and the widgets as the base class leaves them
  let p : VisualizationPanel :=
    { current_camera_ := none
      mouse_x_ := 0
      mouse_y_ := 0
      selected_visualizer_ := none
      manager_ := manager
      views_items_ := []
      views_selection_ := -1
      delete_display_ := true
      tools_ := tools
      render_panel_camera_ := none
      id_ := id
      pending_ := []
      calls := [] }
  -- views_->Append( ... ), three times
  let p := { p with views_items_ := p.views_items_ ++ ["Orbit"] }
  let p := { p with views_items_ := p.views_items_ ++ ["FPS"] }
  let p := { p with views_items_ := p.views_items_ ++ ["Top-down Orthographic"] }
  -- views_->SetSelection( 0 )
  let p := { p with views_selection_ := 0 }
  -- delete_display_->Enable( false )
  let p := { p with delete_display_ := false }
  -- current_camera_ = orbit_camera_
  let p := { p with current_camera_ := some Camera.orbit_camera_ }
  -- render_panel_->getViewport()->setCamera( current_camera_->getOgreCamera() )
  { p with
    render_panel_camera_ := some Camera.orbit_camera_
    calls := p.calls ++ [Call.viewport_setCamera Camera.orbit_camera_] }

/-! ## Tools and rendering -/

/-- The method `addTool` (lines 171-174); `name` is `tool->getName()`. -/
def VisualizationPanel.addTool (p : VisualizationPanel) (name : String) : VisualizationPanel :=
  { p with
    tools_ := p.tools_ ++ [name]
    calls := p.calls ++ [Call.AddRadioTool p.tools_.length name] }

/-- The loop of `setTool` (lines 179-186), entered with loop variable `i` and
`remaining` iterations to go (`remaining = count - i`). -/
def VisualizationPanel.setTool_for (p : VisualizationPanel) (tool : Option ToolPtr)
    (count : Nat) : (remaining : Nat) → (i : Nat) → VisualizationPanel
  | 0, _ => p
  | remaining + 1, i =>
    if i < count then
      if p.manager_.getTool i = tool then
        -- tools_->ToggleTool( i, true ); break;
        { p with calls := p.calls ++ [Call.ToggleTool i true] }
      else
        VisualizationPanel.setTool_for p tool count remaining (i + 1)
    else
      p

/-- The method `setTool` (lines 176-187).  The number of tools of a toolbar fits
an `int`. -/
def VisualizationPanel.setTool (p : VisualizationPanel) (tool : Option ToolPtr) :
    VisualizationPanel :=
  let count := p.tools_.length
  p.setTool_for tool count count 0

/-- The method `queueRender` (lines 189-193). -/
def VisualizationPanel.queueRender (p : VisualizationPanel) : VisualizationPanel :=
  let event : wxCommandEvent := { type := wxEventType.EVT_RENDER, id := p.id_ }
  { p with
    pending_ := p.pending_ ++ [event]
    calls := p.calls ++ [Call.wxPostEvent event] }

/-- The handler `onRender` (lines 195-198). -/
def VisualizationPanel.onRender (p : VisualizationPanel) (_event : wxCommandEvent) :
    VisualizationPanel :=
  { p with calls := p.calls ++ [Call.Refresh] }

/-- The handler `onToolClicked` (lines 200-205). -/
def VisualizationPanel.onToolClicked (p : VisualizationPanel) (event : wxCommandEvent) :
    VisualizationPanel :=
  let tool := p.manager_.getTool event.id
  { p with
    manager_ := p.manager_.setCurrentTool tool
    calls := p.calls ++ [Call.setCurrentTool tool] }

/-! ## Views -/

/-- The handler `onViewSelected` (lines 208-251). -/
def VisualizationPanel.onViewSelected (p : VisualizationPanel) (_event : wxCommandEvent) :
    Except Halt VisualizationPanel :=
  let prev_camera := p.current_camera_
  let set_from_old := false
  -- switch ( views_->GetSelection() ), which has no default case
  let (current_camera_, set_from_old) :=
    if p.views_selection_ = View.FPS.toInt then
      (some Camera.fps_camera_,
       if p.current_camera_ = some Camera.orbit_camera_ then true else set_from_old)
    else if p.views_selection_ = View.Orbit.toInt then
      (some Camera.orbit_camera_,
       if p.current_camera_ = some Camera.fps_camera_ then true else set_from_old)
    else if p.views_selection_ = View.TopDownOrtho.toInt then
      (some Camera.top_down_ortho_, set_from_old)
    else
      (p.current_camera_, set_from_old)
  match current_camera_ with
  | none =>
    -- current_camera_->getOgreCamera() through a null pointer
    Except.error Halt.null_dereference
  | some camera =>
    let calls :=
      if set_from_old then p.calls ++ [Call.setFrom camera prev_camera] else p.calls
    Except.ok
      { p with
        current_camera_ := some camera
        render_panel_camera_ := some camera
        calls := calls ++ [Call.render_panel_setCamera camera] }

/-! ## Properties -/

/-- The handler `onPropertyChanging` (lines 253-263). -/
def VisualizationPanel.onPropertyChanging (p : VisualizationPanel)
    (event : wxPropertyGridEvent) : VisualizationPanel :=
  match event.property with
  | none => p
  | some _ => { p with calls := p.calls ++ [Call.propertyChanging event] }

/-- The handler `onPropertyChanged` (lines 265-277). -/
def VisualizationPanel.onPropertyChanged (p : VisualizationPanel)
    (event : wxPropertyGridEvent) : VisualizationPanel :=
  match event.property with
  | none => p
  | some _ =>
    let p := { p with calls := p.calls ++ [Call.propertyChanged event] }
    p.queueRender

/-- The handler `onPropertySelected` (lines 279-311). -/
def VisualizationPanel.onPropertySelected (p : VisualizationPanel)
    (event : wxPropertyGridEvent) : VisualizationPanel :=
  -- delete_display_->Enable( false )
  let p := { p with delete_display_ := false }
  match event.property with
  | none => p
  | some pg_property =>
    match pg_property.client_data with
    | none => p
    | some property =>
      match property.user_data with
      | none => p
      | some visualizer =>
        if p.manager_.isValidVisualizer visualizer then
          let p := { p with selected_visualizer_ := some visualizer }
          if p.manager_.isDeletionAllowed visualizer then
            { p with delete_display_ := true }
          else
            p
        else
          p

/-! ## Mouse -/

/-- The handler `onRenderWindowMouseEvents` (lines 313-332).  `processMouseEvent`
is what the tool answers to the call of that name. -/
def VisualizationPanel.onRenderWindowMouseEvents (T : ToolFlags) (p : VisualizationPanel)
    (event : wxMouseEvent) (processMouseEvent : ToolPtr → wxMouseEvent → Int → Int → Int) :
    Except Halt VisualizationPanel :=
  let last_x := p.mouse_x_
  let last_y := p.mouse_y_
  let p := { p with mouse_x_ := event.x, mouse_y_ := event.y }
  match p.manager_.current_tool_ with
  | none =>
    -- manager_->getCurrentTool()->processMouseEvent( ... ) through a null pointer
    Except.error Halt.null_dereference
  | some tool =>
    let flags := processMouseEvent tool event last_x last_y
    let p := { p with calls := p.calls ++ [Call.processMouseEvent tool event last_x last_y] }
    let p := if Int.land flags T.Render ≠ 0 then p.queueRender else p
    let p :=
      if Int.land flags T.Finished ≠ 0 then
        { p with
          manager_ := p.manager_.setCurrentTool p.manager_.default_tool_
          calls := p.calls ++ [Call.setCurrentTool p.manager_.default_tool_] }
      else p
    Except.ok p

/-! ## Adding and deleting displays -/

/-- The `while (1)` loop of `onNewDisplay` (lines 340-363), run on the answers
the dialog is given.  The second component is `none` when the loop is left by a
`break`. -/
def VisualizationPanel.onNewDisplay_while (p : VisualizationPanel) :
    List DialogOutcome → VisualizationPanel × Option Halt
  | [] => (p, some Halt.dialog_open)
  | dialog :: later =>
    let p := { p with calls := p.calls ++ [Call.ShowModal dialog.ShowModal] }
    if dialog.ShowModal = wxOK then
      let type := dialog.getTypeName
      let name := dialog.getVisualizerName
      let found := p.manager_.getVisualizer name
      let p := { p with calls := p.calls ++ [Call.getVisualizer name found] }
      if found ≠ none then
        let p := { p with calls := p.calls ++
          [Call.wxMessageBox "A visualizer with that name already exists!" "Invalid name"] }
        -- continue
        VisualizationPanel.onNewDisplay_while p later
      else
        let created := p.manager_.createVisualizer type name true true
        let p := { p with
          manager_ := created.2
          calls := p.calls ++ [Call.createVisualizer type name true true] }
        match created.1 with
        | none => (p, some Halt.assertion_failed)
        | some _ => (p, none)
    else
      (p, none)

/-- The handler `onNewDisplay` (lines 334-364); `dialog` lists what the
successive `dialog.ShowModal()` produce. -/
def VisualizationPanel.onNewDisplay (p : VisualizationPanel) (dialog : List DialogOutcome) :
    VisualizationPanel × Option Halt :=
  let types := p.manager_.registered_types_
  let p := { p with calls := p.calls ++ [Call.NewDisplayDialog types] }
  p.onNewDisplay_while dialog

/-- The handler `onDeleteDisplay` (lines 366-375). -/
def VisualizationPanel.onDeleteDisplay (p : VisualizationPanel) : VisualizationPanel :=
  match p.selected_visualizer_ with
  | none => p
  | some selected =>
    { p with
      manager_ := p.manager_.removeVisualizer selected
      selected_visualizer_ := none
      calls := p.calls ++ [Call.removeVisualizer selected] }

/-- The slot `onVisualizerStateChanged` (lines 377-395); `property` is what
`property_grid_->GetProperty( category_name )` finds. -/
def VisualizationPanel.onVisualizerStateChanged (p : VisualizationPanel)
    (visualizer : VisualizerBase) (property : Option wxPGProperty) :
    Except Halt VisualizationPanel :=
  let category_name := visualizer.getName ++ " (" ++ visualizer.getType ++ ")"
  match property with
  | none => Except.error Halt.assertion_failed
  | some _ =>
    if visualizer.isEnabled then
      Except.ok { p with calls := p.calls ++ [Call.SetCell category_name 32 116 38] }
    else
      Except.ok { p with calls := p.calls ++ [Call.SetCell category_name 151 24 41] }

/-! ## The panel as a state machine -/

/-- The toolkit delivering the oldest pending event of the panel to the handler
connected for its type; `Connect( EVT_RENDER, ... onRender ... )` (line 99) is the
only connection the panel makes on itself. -/
def VisualizationPanel.dispatchPending (p : VisualizationPanel) : VisualizationPanel :=
  match p.pending_ with
  | [] => p
  | event :: rest =>
    let p := { p with pending_ := rest }
    if event.type = wxEventType.EVT_RENDER then p.onRender event else p

/-- What can happen to a constructed panel: one entry per handler and per public
method of the file, with what the collaborators answer during the call.
(`loadConfig` and `saveConfig` only hand a `wxConfigBase` to the manager and touch
no member; what the manager does with it is not in this file.) -/
inductive Event where
  /-- The toolkit dispatches the oldest pending event. -/
  | dispatchPending
  /-- A tool of the toolbar is clicked. -/
  | ToolClicked (event : wxCommandEvent)
  /-- The user picks the entry `selection` of the choice `views_`. -/
  | ViewSelected (selection : Int) (event : wxCommandEvent)
  /-- Signal `wxEVT_PG_CHANGING` of the property grid. -/
  | PropertyChanging (event : wxPropertyGridEvent)
  /-- Signal `wxEVT_PG_CHANGED` of the property grid. -/
  | PropertyChanged (event : wxPropertyGridEvent)
  /-- Signal `wxEVT_PG_SELECTED` of the property grid. -/
  | PropertySelected (event : wxPropertyGridEvent)
  /-- A mouse event on the render window, and how a tool answers it. -/
  | RenderWindowMouseEvents (event : wxMouseEvent)
      (processMouseEvent : ToolPtr → wxMouseEvent → Int → Int → Int)
  /-- The button "new display", and the answers given to the dialog. -/
  | NewDisplay (dialog : List DialogOutcome)
  /-- The button "delete display". -/
  | DeleteDisplay
  /-- The state signal of the manager. -/
  | VisualizerStateChanged (visualizer : VisualizerBase) (property : Option wxPGProperty)
  /-- A call of `addTool`. -/
  | addTool (name : String)
  /-- A call of `setTool`. -/
  | setTool (tool : Option ToolPtr)
  /-- A call of `queueRender`. -/
  | queueRender

/-- One event handled by the panel. -/
def VisualizationPanel.handle (T : ToolFlags) (p : VisualizationPanel) :
    Event → Except Halt VisualizationPanel
  | .dispatchPending => Except.ok p.dispatchPending
  | .ToolClicked event => Except.ok (p.onToolClicked event)
  | .ViewSelected selection event =>
    VisualizationPanel.onViewSelected { p with views_selection_ := selection } event
  | .PropertyChanging event => Except.ok (p.onPropertyChanging event)
  | .PropertyChanged event => Except.ok (p.onPropertyChanged event)
  | .PropertySelected event => Except.ok (p.onPropertySelected event)
  | .RenderWindowMouseEvents event processMouseEvent =>
    p.onRenderWindowMouseEvents T event processMouseEvent
  | .NewDisplay dialog =>
    match p.onNewDisplay dialog with
    | (p, none) => Except.ok p
    | (_, some halt) => Except.error halt
  | .DeleteDisplay => Except.ok p.onDeleteDisplay
  | .VisualizerStateChanged visualizer property =>
    p.onVisualizerStateChanged visualizer property
  | .addTool name => Except.ok (p.addTool name)
  | .setTool tool => Except.ok (p.setTool tool)
  | .queueRender => Except.ok p.queueRender

/-- A sequence of events handled one after the other; the first halt ends it. -/
def VisualizationPanel.run (T : ToolFlags) (p : VisualizationPanel) :
    List Event → Except Halt VisualizationPanel
  | [] => Except.ok p
  | e :: es =>
    match p.handle T e with
    | Except.ok p => VisualizationPanel.run T p es
    | Except.error halt => Except.error halt

/-- The calls made between a state `p` and a later state `p'`. -/
def VisualizationPanel.callsSince (p p' : VisualizationPanel) : List Call :=
  p'.calls.drop p.calls.length

/-- The visualizer the property of a property-grid event carries: the property is
not null, its client data is not null, and the user data of that is not null. -/
def wxPropertyGridEvent.visualizer (event : wxPropertyGridEvent) : Option VisualizerPtr :=
  event.property.bind (fun pg_property =>
    pg_property.client_data.bind (fun property => property.user_data))

/-- Events handled by `onPropertySelected` or `onDeleteDisplay`. -/
def Event.isPropertySelectedOrDeleteDisplay : Event → Bool
  | .PropertySelected _ => true
  | .DeleteDisplay => true
  | _ => false

/-- Calls of `createVisualizer`. -/
def Call.isCreateVisualizer : Call → Bool
  | .createVisualizer _ _ _ _ => true
  | _ => false

/-- An answer to the dialog that is OK with the name of a registered visualizer. -/
def DialogOutcome.isDuplicate (m : VisualizationManager) (d : DialogOutcome) : Bool :=
  d.ShowModal == wxOK && (m.getVisualizer d.getVisualizerName).isSome

/-- The calls of the iterations of the loop of `onNewDisplay` that end in `continue`,
one iteration per answer: the dialog is shown, the name is looked up, the error is
shown. -/
def duplicateCalls (m : VisualizationManager) : List DialogOutcome → List Call
  | [] => []
  | d :: later =>
    [Call.ShowModal d.ShowModal,
     Call.getVisualizer d.getVisualizerName (m.getVisualizer d.getVisualizerName),
     Call.wxMessageBox "A visualizer with that name already exists!" "Invalid name"] ++
    duplicateCalls m later

/-- Calls of `render_panel_->Refresh()`. -/
def Call.isRefresh : Call → Bool
  | .Refresh => true
  | _ => false

/-- Calls of `wxPostEvent`. -/
def Call.isPostEvent : Call → Bool
  | .wxPostEvent _ => true
  | _ => false

/-- The event and the last coordinates a call of `processMouseEvent` passes to the
tool. -/
def Call.mouse? : Call → Option (wxMouseEvent × Int × Int)
  | .processMouseEvent _ event last_x last_y => some (event, last_x, last_y)
  | _ => none

/-- Calls that neither refresh, nor post an event, nor go to a tool. -/
def Call.isQuiet (c : Call) : Bool :=
  !c.isRefresh && !c.isPostEvent && c.mouse?.isNone

/-- Events whose handlers neither queue a redraw nor refresh nor use the mouse: all but
the dispatch of a pending event, `queueRender`, `onPropertyChanged` and
`onRenderWindowMouseEvents`. -/
def Event.isQuiet : Event → Bool
  | .dispatchPending => false
  | .PropertyChanged _ => false
  | .RenderWindowMouseEvents _ _ => false
  | .queueRender => false
  | _ => true

/-- The mouse event of an event handled by `onRenderWindowMouseEvents`. -/
def Event.mouse? : Event → Option wxMouseEvent
  | .RenderWindowMouseEvents event _ => some event
  | _ => none

/-- The event and last coordinates the tool is to be given for each of a sequence of
mouse events, when the stored coordinates are `(x, y)` before the first. -/
def expectedLast (x y : Int) : List wxMouseEvent → List (wxMouseEvent × Int × Int)
  | [] => []
  | event :: later => (event, x, y) :: expectedLast event.x event.y later

/-- The coordinates of the last of a sequence of mouse events, `(x, y)` when there is
none. -/
def lastCoordinates (x y : Int) : List wxMouseEvent → Int × Int
  | [] => (x, y)
  | event :: later => lastCoordinates event.x event.y later

/-- A state with other stored mouse coordinates. -/
def VisualizationPanel.withMouse (p : VisualizationPanel) (x y : Int) : VisualizationPanel :=
  { p with mouse_x_ := x, mouse_y_ := y }

/-- The camera the `switch` of `onViewSelected` makes current for a view. -/
def View.camera : View → Camera
  | .Orbit => Camera.orbit_camera_
  | .FPS => Camera.fps_camera_
  | .TopDownOrtho => Camera.top_down_ortho_

/-! ## Concrete inputs -/

/-- A manager with one deletable visualizer, one that may not be deleted, and two tools. -/
def exampleManager : VisualizationManager :=
  { visualizers_ :=
      [{ ptr := 1, name := "grid", type := "Grid", enabled := true, allow_deletion := true },
       { ptr := 2, name := "axes", type := "Axes", enabled := true, allow_deletion := false }]
    registered_types_ := ["Grid", "Axes"]
    tools_ := [10, 11]
    current_tool_ := some 10
    default_tool_ := some 10 }

/-- A freshly constructed panel over `exampleManager` with a toolbar of two tools. -/
def examplePanel : VisualizationPanel :=
  VisualizationPanel.construct exampleManager ["Move", "Select"] 7

/-- Flag values with `Render` and `Finished` on different bits. -/
def exampleFlags : ToolFlags := { Render := 1, Finished := 2 }

/-- A property-grid event on the property of the visualizer at `v`. -/
def selectVisualizer (v : VisualizerPtr) : wxPropertyGridEvent :=
  { property := some { client_data := some { user_data := some v } } }

/-- A command event of the choice `views_`. -/
def choiceEvent : wxCommandEvent :=
  { type := wxEventType.wxEVT_COMMAND_CHOICE_SELECTED, id := 0 }

/-- The example panel after the FPS view and then an entry that names no view were
chosen. -/
def examplePanelAfterViews : VisualizationPanel :=
  { examplePanel with
    current_camera_ := some Camera.fps_camera_
    render_panel_camera_ := some Camera.fps_camera_
    views_selection_ := 5
    calls :=
      [Call.viewport_setCamera Camera.orbit_camera_,
       Call.setFrom Camera.fps_camera_ (some Camera.orbit_camera_),
       Call.render_panel_setCamera Camera.fps_camera_,
       Call.render_panel_setCamera Camera.fps_camera_] }

/-- The example panel with the visualizer at address 1 selected. -/
def examplePanelSelected : VisualizationPanel :=
  examplePanel.onPropertySelected (selectVisualizer 1)

/-- The example panel after the visualizer at address 1 was selected and deleted. -/
def examplePanelDeleted : VisualizationPanel :=
  examplePanelSelected.onDeleteDisplay

/-- The example panel after the visualizer at address 2 was selected and a display
named "map" was added. -/
def examplePanelAdded : VisualizationPanel :=
  ((examplePanel.onPropertySelected (selectVisualizer 2)).onNewDisplay
    [{ ShowModal := 4, getTypeName := "Grid", getVisualizerName := "map" }]).1

/-- The example panel after a mouse event whose flags ask for a redraw, before and
after the pending event is dispatched. -/
def examplePanelQueued : VisualizationPanel :=
  { examplePanel with
    mouse_x_ := 3
    mouse_y_ := 4
    pending_ := [{ type := wxEventType.EVT_RENDER, id := 7 }]
    calls :=
      [Call.viewport_setCamera Camera.orbit_camera_,
       Call.processMouseEvent 10 { x := 3, y := 4 } 0 0,
       Call.wxPostEvent { type := wxEventType.EVT_RENDER, id := 7 }] }

/-- The example panel after that pending event was dispatched. -/
def examplePanelRefreshed : VisualizationPanel :=
  { examplePanelQueued with
    pending_ := []
    calls := examplePanelQueued.calls ++ [Call.Refresh] }

/-- The example panel after a mouse event at (3, 4), the choice of the FPS view, and a
mouse event at (5, 6), with flags 0. -/
def examplePanelMoved : VisualizationPanel :=
  { examplePanel with
    mouse_x_ := 5
    mouse_y_ := 6
    current_camera_ := some Camera.fps_camera_
    render_panel_camera_ := some Camera.fps_camera_
    views_selection_ := 1
    calls :=
      [Call.viewport_setCamera Camera.orbit_camera_,
       Call.processMouseEvent 10 { x := 3, y := 4 } 0 0,
       Call.setFrom Camera.fps_camera_ (some Camera.orbit_camera_),
       Call.render_panel_setCamera Camera.fps_camera_,
       Call.processMouseEvent 10 { x := 5, y := 6 } 3 4] }

/-! ## View switching -/

/-- A handler that appended `made` to the calls made exactly `made` since. -/
theorem callsSince_of_append (p p' : VisualizationPanel) (made : List Call)
    (h : p'.calls = p.calls ++ made) : p.callsSince p' = made := by
  simp [VisualizationPanel.callsSince, h]

/-- C1: `onViewSelected` makes the camera of the selected view current (the camera
stays as it is when the selection names no view) and calls `setFrom( prev_camera )` on
that new current camera exactly when the previous camera is the orbit camera and the
selection is FPS, or the previous camera is the FPS camera and the selection is Orbit:
from orbit to FPS the calls are `fps_camera_->setFrom( orbit_camera_ )` and
`render_panel_->setCamera`, from FPS to Orbit `orbit_camera_->setFrom( fps_camera_ )` and
`render_panel_->setCamera`, and in every other case `render_panel_->setCamera` alone.
In particular no pose is copied when the previous camera or the selected view is the
top-down one, or when the view that is already active is selected again.  Nothing but
the current camera, the camera of the render panel and the calls changes.  The handler
returns, unless the current camera is null and the selection names no view. -/
theorem onViewSelected_setFrom_iff (p : VisualizationPanel) (event : wxCommandEvent) :
    (∃ p' camera,
      p.onViewSelected event = Except.ok p' ∧
      p'.current_camera_ = some camera ∧
      p'.calls = p.calls ++ p.callsSince p' ∧
      p.callsSince p' =
        (if (p.current_camera_ = some Camera.orbit_camera_ ∧
              p.views_selection_ = View.FPS.toInt) ∨
            (p.current_camera_ = some Camera.fps_camera_ ∧
              p.views_selection_ = View.Orbit.toInt)
         then [Call.setFrom camera p.current_camera_] else []) ++
        [Call.render_panel_setCamera camera] ∧
      ((∃ target source, Call.setFrom target source ∈ p.callsSince p') ↔
        (p.current_camera_ = some Camera.orbit_camera_ ∧
            p.views_selection_ = View.FPS.toInt) ∨
          (p.current_camera_ = some Camera.fps_camera_ ∧
            p.views_selection_ = View.Orbit.toInt)) ∧
      ((p.current_camera_ = some Camera.top_down_ortho_ ∨
          p.views_selection_ = View.TopDownOrtho.toInt ∨
          (∃ v : View, p.views_selection_ = v.toInt ∧ p.current_camera_ = some v.camera)) →
        ∀ target source, Call.setFrom target source ∉ p.callsSince p') ∧
      (∀ v : View, p.views_selection_ = v.toInt → camera = v.camera) ∧
      ((∀ v : View, p.views_selection_ ≠ v.toInt) → p.current_camera_ = some camera) ∧
      ((p.current_camera_ = some Camera.orbit_camera_ ∧
          p.views_selection_ = View.FPS.toInt) →
        p'.current_camera_ = some Camera.fps_camera_ ∧
        p.callsSince p' =
          [Call.setFrom Camera.fps_camera_ (some Camera.orbit_camera_),
           Call.render_panel_setCamera Camera.fps_camera_]) ∧
      ((p.current_camera_ = some Camera.fps_camera_ ∧
          p.views_selection_ = View.Orbit.toInt) →
        p'.current_camera_ = some Camera.orbit_camera_ ∧
        p.callsSince p' =
          [Call.setFrom Camera.orbit_camera_ (some Camera.fps_camera_),
           Call.render_panel_setCamera Camera.orbit_camera_]) ∧
      (∀ target source, Call.setFrom target source ∈ p.callsSince p' →
        some target = p'.current_camera_ ∧ source = p.current_camera_ ∧
        target ≠ Camera.top_down_ortho_ ∧ source ≠ some target) ∧
      p' =
        { p with
          current_camera_ := some camera
          render_panel_camera_ := some camera
          calls := p'.calls }) ∨
    (p.onViewSelected event = Except.error Halt.null_dereference ∧
      p.current_camera_ = none ∧ ∀ v : View, p.views_selection_ ≠ v.toInt) := by
  have hv : ∀ P : View → Prop, (∃ v, P v) ↔ (P View.Orbit ∨ P View.FPS ∨ P View.TopDownOrtho) := by
    intro P
    constructor
    · rintro ⟨v, hv⟩
      cases v <;> simp [hv]
    · rintro (h | h | h) <;> exact ⟨_, h⟩
  have hv2 : ∀ P : View → Prop, (∀ v, P v) ↔ (P View.Orbit ∧ P View.FPS ∧ P View.TopDownOrtho) := by
    intro P
    constructor
    · intro h; exact ⟨h _, h _, h _⟩
    · rintro ⟨a, b, c⟩ v
      cases v <;> assumption
  rcases hc : p.current_camera_ with _ | c
  · by_cases h1 : p.views_selection_ = 1
    · simp [VisualizationPanel.onViewSelected, VisualizationPanel.callsSince, View.toInt,
        View.camera, h1, hc, hv, hv2]
    · by_cases h0 : p.views_selection_ = 0
      · simp [VisualizationPanel.onViewSelected, VisualizationPanel.callsSince, View.toInt,
          View.camera, h0, hc, hv, hv2]
      · by_cases h2 : p.views_selection_ = 2
        · simp [VisualizationPanel.onViewSelected, VisualizationPanel.callsSince, View.toInt,
            View.camera, h2, hc, hv, hv2]
        · simp [VisualizationPanel.onViewSelected, VisualizationPanel.callsSince, View.toInt,
            View.camera, h0, h1, h2, hc, hv, hv2]
  · by_cases h1 : p.views_selection_ = 1
    · cases c <;>
        simp [VisualizationPanel.onViewSelected, VisualizationPanel.callsSince, View.toInt,
          View.camera, h1, hc, hv, hv2]
    · by_cases h0 : p.views_selection_ = 0
      · cases c <;>
          simp [VisualizationPanel.onViewSelected, VisualizationPanel.callsSince, View.toInt,
            View.camera, h0, hc, hv, hv2]
      · by_cases h2 : p.views_selection_ = 2
        · cases c <;>
            simp [VisualizationPanel.onViewSelected, VisualizationPanel.callsSince, View.toInt,
              View.camera, h2, hc, hv, hv2]
        · cases c <;>
            simp [VisualizationPanel.onViewSelected, VisualizationPanel.callsSince, View.toInt,
              View.camera, h0, h1, h2, hc, hv, hv2]

/-! ## Runs and what the recursive handlers leave alone -/

/-- A property that holds of a state and that every handled event of a kind `E`
preserves holds after every run of events of that kind from that state. -/
theorem run_induction (T : ToolFlags) (E : Event → Prop) (Inv : VisualizationPanel → Prop)
    (hstep : ∀ p e p', E e → Inv p → p.handle T e = Except.ok p' → Inv p') :
    ∀ (events : List Event) (p p' : VisualizationPanel),
      (∀ e ∈ events, E e) → Inv p → p.run T events = Except.ok p' → Inv p' := by
  intro events
  induction events with
  | nil =>
    intro p p' _ hp h
    simp only [VisualizationPanel.run, Except.ok.injEq] at h
    exact h ▸ hp
  | cons e es ih =>
    intro p p' hE hp h
    simp only [VisualizationPanel.run] at h
    cases hq : p.handle T e with
    | error halt => simp [hq] at h
    | ok q =>
      simp only [hq] at h
      exact ih q p' (fun x hx => hE x (List.mem_cons_of_mem _ hx))
        (hstep p e q (hE e (List.mem_cons_self _ _)) hp hq) h

/-- The loop of `setTool` changes nothing but the calls. -/
theorem setTool_for_frame (p : VisualizationPanel) (tool : Option ToolPtr) (count : Nat) :
    ∀ remaining i, p.setTool_for tool count remaining i =
      { p with calls := (p.setTool_for tool count remaining i).calls } := by
  intro remaining
  induction remaining with
  | zero => intro i; simp [VisualizationPanel.setTool_for]
  | succ r ih =>
    intro i
    simp only [VisualizationPanel.setTool_for]
    split
    · split
      · rfl
      · exact ih (i + 1)
    · rfl

/-- The method `setTool` changes nothing but the calls. -/
theorem setTool_frame (p : VisualizationPanel) (tool : Option ToolPtr) :
    p.setTool tool = { p with calls := (p.setTool tool).calls } :=
  setTool_for_frame p tool _ _ _

/-- Creating a visualizer keeps every registered visualizer registered, with its
permission to be deleted, and leaves the tools alone. -/
theorem createVisualizer_keeps (m : VisualizationManager) (type name : String)
    (enabled allow_deletion : Bool) :
    (∀ v, m.isValidVisualizer v = true →
      (m.createVisualizer type name enabled allow_deletion).2.isValidVisualizer v = true) ∧
    (∀ v, m.isDeletionAllowed v = true →
      (m.createVisualizer type name enabled allow_deletion).2.isDeletionAllowed v = true) ∧
    (m.createVisualizer type name enabled allow_deletion).2.tools_ = m.tools_ ∧
    (m.createVisualizer type name enabled allow_deletion).2.current_tool_ = m.current_tool_ ∧
    (m.createVisualizer type name enabled allow_deletion).2.default_tool_ = m.default_tool_ := by
  unfold VisualizationManager.createVisualizer
  split
  · refine ⟨?_, ?_, rfl, rfl, rfl⟩
    · intro v hv
      simp only [VisualizationManager.isValidVisualizer, List.any_append] at hv ⊢
      simp [hv]
    · intro v hv
      simp only [VisualizationManager.isDeletionAllowed, List.any_append] at hv ⊢
      simp [hv]
  · exact ⟨fun _ h => h, fun _ h => h, rfl, rfl, rfl⟩

/-- The loop of `onNewDisplay` changes nothing but the manager and the calls, and in
the manager it keeps every registered visualizer and the tools. -/
theorem onNewDisplay_while_frame :
    ∀ (dialog : List DialogOutcome) (p : VisualizationPanel),
      (p.onNewDisplay_while dialog).1 =
        { p with
          manager_ := (p.onNewDisplay_while dialog).1.manager_
          calls := (p.onNewDisplay_while dialog).1.calls } ∧
      (∀ v, p.manager_.isValidVisualizer v = true →
        (p.onNewDisplay_while dialog).1.manager_.isValidVisualizer v = true) ∧
      (∀ v, p.manager_.isDeletionAllowed v = true →
        (p.onNewDisplay_while dialog).1.manager_.isDeletionAllowed v = true) ∧
      (p.onNewDisplay_while dialog).1.manager_.tools_ = p.manager_.tools_ ∧
      (p.onNewDisplay_while dialog).1.manager_.current_tool_ = p.manager_.current_tool_ ∧
      (p.onNewDisplay_while dialog).1.manager_.default_tool_ = p.manager_.default_tool_ := by
  intro dialog
  induction dialog with
  | nil => intro p; simp [VisualizationPanel.onNewDisplay_while]
  | cons d later ih =>
    intro p
    simp only [VisualizationPanel.onNewDisplay_while]
    split
    · split
      · obtain ⟨h1, h2, h3, h4, h5, h6⟩ := ih
          { p with calls := p.calls ++ [Call.ShowModal d.ShowModal] ++
              [Call.getVisualizer d.getVisualizerName
                (p.manager_.getVisualizer d.getVisualizerName)] ++
              [Call.wxMessageBox "A visualizer with that name already exists!"
                "Invalid name"] }
        refine ⟨?_, h2, h3, h4, h5, h6⟩
        rw [h1]
      · obtain ⟨k1, k2, k3, k4, k5⟩ :=
          createVisualizer_keeps p.manager_ d.getTypeName d.getVisualizerName true true
        split <;> exact ⟨rfl, k1, k2, k3, k4, k5⟩
    · exact ⟨rfl, fun _ h => h, fun _ h => h, rfl, rfl, rfl⟩

/-- The handler `onNewDisplay` changes nothing but the manager and the calls, and in
the manager it keeps every registered visualizer and the tools. -/
theorem onNewDisplay_frame (p : VisualizationPanel) (dialog : List DialogOutcome) :
    (p.onNewDisplay dialog).1 =
      { p with
        manager_ := (p.onNewDisplay dialog).1.manager_
        calls := (p.onNewDisplay dialog).1.calls } ∧
    (∀ v, p.manager_.isValidVisualizer v = true →
      (p.onNewDisplay dialog).1.manager_.isValidVisualizer v = true) ∧
    (∀ v, p.manager_.isDeletionAllowed v = true →
      (p.onNewDisplay dialog).1.manager_.isDeletionAllowed v = true) ∧
    (p.onNewDisplay dialog).1.manager_.tools_ = p.manager_.tools_ ∧
    (p.onNewDisplay dialog).1.manager_.current_tool_ = p.manager_.current_tool_ ∧
    (p.onNewDisplay dialog).1.manager_.default_tool_ = p.manager_.default_tool_ := by
  obtain ⟨h1, h2, h3, h4, h5, h6⟩ := onNewDisplay_while_frame dialog
    { p with calls := p.calls ++ [Call.NewDisplayDialog p.manager_.registered_types_] }
  refine ⟨?_, h2, h3, h4, h5, h6⟩
  simp only [VisualizationPanel.onNewDisplay]
  rw [h1]

/-! ## Closed forms of the handlers that can halt -/

/-- The three views are all the views. -/
theorem View.forall_iff (P : View → Prop) :
    (∀ v, P v) ↔ (P View.Orbit ∧ P View.FPS ∧ P View.TopDownOrtho) := by
  constructor
  · intro h; exact ⟨h _, h _, h _⟩
  · rintro ⟨a, b, c⟩ v
    cases v <;> assumption

/-- The handler `onViewSelected` when the selection names a view. -/
theorem onViewSelected_of_view (p : VisualizationPanel) (event : wxCommandEvent) (v : View)
    (h : p.views_selection_ = v.toInt) :
    p.onViewSelected event = Except.ok
      { p with
        current_camera_ := some v.camera
        render_panel_camera_ := some v.camera
        calls := p.calls ++
          (if (p.current_camera_ = some Camera.orbit_camera_ ∧ v = View.FPS) ∨
              (p.current_camera_ = some Camera.fps_camera_ ∧ v = View.Orbit)
           then [Call.setFrom v.camera p.current_camera_] else []) ++
          [Call.render_panel_setCamera v.camera] } := by
  rcases hc : p.current_camera_ with _ | c
  · cases v <;>
      simp only [View.toInt] at h <;>
      simp [VisualizationPanel.onViewSelected, View.toInt, View.camera, h, hc]
  · cases v <;> cases c <;>
      simp only [View.toInt] at h <;>
      simp [VisualizationPanel.onViewSelected, View.toInt, View.camera, h, hc]

/-- The handler `onViewSelected` when the selection names no view. -/
theorem onViewSelected_of_no_view (p : VisualizationPanel) (event : wxCommandEvent)
    (h : ∀ v : View, p.views_selection_ ≠ v.toInt) :
    p.onViewSelected event =
      match p.current_camera_ with
      | none => Except.error Halt.null_dereference
      | some camera => Except.ok
        { p with
          current_camera_ := some camera
          render_panel_camera_ := some camera
          calls := p.calls ++ [Call.render_panel_setCamera camera] } := by
  obtain ⟨h0, h1, h2⟩ := (View.forall_iff _).1 h
  simp only [View.toInt] at h0 h1 h2
  cases hc : p.current_camera_ <;>
    simp [VisualizationPanel.onViewSelected, View.toInt, h0, h1, h2, hc]

/-- The handler `onRenderWindowMouseEvents` when the manager has a current tool. -/
theorem onRenderWindowMouseEvents_of_tool (T : ToolFlags) (p : VisualizationPanel)
    (event : wxMouseEvent) (processMouseEvent : ToolPtr → wxMouseEvent → Int → Int → Int)
    (tool : ToolPtr) (h : p.manager_.current_tool_ = some tool) :
    p.onRenderWindowMouseEvents T event processMouseEvent = Except.ok
      { p with
        mouse_x_ := event.x
        mouse_y_ := event.y
        manager_ :=
          if Int.land (processMouseEvent tool event p.mouse_x_ p.mouse_y_) T.Finished ≠ 0 then
            p.manager_.setCurrentTool p.manager_.default_tool_
          else p.manager_
        pending_ := p.pending_ ++
          (if Int.land (processMouseEvent tool event p.mouse_x_ p.mouse_y_) T.Render ≠ 0 then
            [{ type := wxEventType.EVT_RENDER, id := p.id_ }] else [])
        calls := p.calls ++ [Call.processMouseEvent tool event p.mouse_x_ p.mouse_y_] ++
          (if Int.land (processMouseEvent tool event p.mouse_x_ p.mouse_y_) T.Render ≠ 0 then
            [Call.wxPostEvent { type := wxEventType.EVT_RENDER, id := p.id_ }] else []) ++
          (if Int.land (processMouseEvent tool event p.mouse_x_ p.mouse_y_) T.Finished ≠ 0 then
            [Call.setCurrentTool p.manager_.default_tool_] else []) } := by
  simp only [VisualizationPanel.onRenderWindowMouseEvents, h, VisualizationPanel.queueRender]
  by_cases hr : Int.land (processMouseEvent tool event p.mouse_x_ p.mouse_y_) T.Render = 0 <;>
    by_cases hf : Int.land (processMouseEvent tool event p.mouse_x_ p.mouse_y_) T.Finished = 0 <;>
    simp [hr, hf]

/-- The handler `onRenderWindowMouseEvents` when the manager has no current tool. -/
theorem onRenderWindowMouseEvents_of_no_tool (T : ToolFlags) (p : VisualizationPanel)
    (event : wxMouseEvent) (processMouseEvent : ToolPtr → wxMouseEvent → Int → Int → Int)
    (h : p.manager_.current_tool_ = none) :
    p.onRenderWindowMouseEvents T event processMouseEvent =
      Except.error Halt.null_dereference := by
  simp [VisualizationPanel.onRenderWindowMouseEvents, h]

/-! ## The current camera -/

/-- Only the choice of a view changes the current camera, the camera of the render
panel, or the selection of `views_`. -/
theorem handle_camera_frame (T : ToolFlags) (p p' : VisualizationPanel) (e : Event)
    (h : p.handle T e = Except.ok p') (hne : ∀ selection event, e ≠ Event.ViewSelected selection event) :
    p'.current_camera_ = p.current_camera_ ∧
    p'.render_panel_camera_ = p.render_panel_camera_ ∧
    p'.views_selection_ = p.views_selection_ := by
  cases e with
  | dispatchPending =>
    simp only [VisualizationPanel.handle, Except.ok.injEq] at h
    subst h
    simp only [VisualizationPanel.dispatchPending, VisualizationPanel.onRender]
    split
    · simp
    · split <;> simp
  | ToolClicked event =>
    simp only [VisualizationPanel.handle, Except.ok.injEq] at h
    subst h
    simp [VisualizationPanel.onToolClicked]
  | ViewSelected selection event => exact absurd rfl (hne selection event)
  | PropertyChanging event =>
    simp only [VisualizationPanel.handle, Except.ok.injEq] at h
    subst h
    simp only [VisualizationPanel.onPropertyChanging]
    split <;> simp
  | PropertyChanged event =>
    simp only [VisualizationPanel.handle, Except.ok.injEq] at h
    subst h
    simp only [VisualizationPanel.onPropertyChanged, VisualizationPanel.queueRender]
    split <;> simp
  | PropertySelected event =>
    simp only [VisualizationPanel.handle, Except.ok.injEq] at h
    subst h
    simp only [VisualizationPanel.onPropertySelected]
    repeat' split
    all_goals simp
  | RenderWindowMouseEvents event f =>
    simp only [VisualizationPanel.handle] at h
    cases ht : p.manager_.current_tool_ with
    | none => simp [onRenderWindowMouseEvents_of_no_tool T p event f ht] at h
    | some tool =>
      simp only [onRenderWindowMouseEvents_of_tool T p event f tool ht, Except.ok.injEq] at h
      subst h
      simp
  | NewDisplay dialog =>
    simp only [VisualizationPanel.handle] at h
    have hf := (onNewDisplay_frame p dialog).1
    rcases hnd : p.onNewDisplay dialog with ⟨q, _ | halt⟩
    · simp only [hnd, Except.ok.injEq] at h hf
      subst h
      rw [hf]
      simp
    · simp [hnd] at h
  | DeleteDisplay =>
    simp only [VisualizationPanel.handle, Except.ok.injEq] at h
    subst h
    simp only [VisualizationPanel.onDeleteDisplay]
    split <;> simp
  | VisualizerStateChanged visualizer property =>
    simp only [VisualizationPanel.handle, VisualizationPanel.onVisualizerStateChanged] at h
    split at h
    · simp at h
    · split at h <;>
      · simp only [Except.ok.injEq] at h
        subst h
        simp
  | addTool name =>
    simp only [VisualizationPanel.handle, Except.ok.injEq] at h
    subst h
    simp [VisualizationPanel.addTool]
  | setTool tool =>
    simp only [VisualizationPanel.handle, Except.ok.injEq] at h
    subst h
    rw [setTool_frame]
    simp
  | queueRender =>
    simp only [VisualizationPanel.handle, Except.ok.injEq] at h
    subst h
    simp [VisualizationPanel.queueRender]

/-- C6: after construction the current camera is the orbit camera, the selection of
the choice is 0 (Orbit) and the orbit camera is attached to the render panel; after
`onViewSelected` with a selection that names a view the current camera and the camera
of the render panel are the camera of that view; and in every state reached from
construction the current camera is not null, is one of the three cameras, is the
camera attached to the render panel, and is the camera of the view the choice names. -/
theorem current_camera_follows_views (T : ToolFlags) (manager : VisualizationManager)
    (tools : List String) (id : Int) (events : List Event) (p : VisualizationPanel)
    (h : (VisualizationPanel.construct manager tools id).run T events = Except.ok p) :
    ((VisualizationPanel.construct manager tools id).current_camera_ =
        some Camera.orbit_camera_ ∧
      (VisualizationPanel.construct manager tools id).views_selection_ = View.Orbit.toInt ∧
      (VisualizationPanel.construct manager tools id).render_panel_camera_ =
        some Camera.orbit_camera_) ∧
    (∀ (q : VisualizationPanel) (event : wxCommandEvent) (v : View),
      q.views_selection_ = v.toInt →
      ∃ q', q.onViewSelected event = Except.ok q' ∧
        q'.current_camera_ = some v.camera ∧ q'.render_panel_camera_ = some v.camera ∧
        q'.views_selection_ = v.toInt) ∧
    (∃ camera, p.current_camera_ = some camera ∧ p.render_panel_camera_ = some camera ∧
      (camera = Camera.orbit_camera_ ∨ camera = Camera.fps_camera_ ∨
        camera = Camera.top_down_ortho_) ∧
      ∀ v : View, p.views_selection_ = v.toInt → camera = v.camera) := by
  refine ⟨⟨rfl, rfl, rfl⟩, ?_, ?_⟩
  · intro q event v hv
    exact ⟨_, onViewSelected_of_view q event v hv, rfl, rfl, hv⟩
  · have key : ∃ camera, p.current_camera_ = some camera ∧
        p.render_panel_camera_ = some camera ∧
        ∀ v : View, p.views_selection_ = v.toInt → camera = v.camera := by
      refine run_induction T (fun _ => True)
        (fun p => ∃ camera, p.current_camera_ = some camera ∧
          p.render_panel_camera_ = some camera ∧
          ∀ v : View, p.views_selection_ = v.toInt → camera = v.camera)
        ?_ events _ p (fun _ _ => trivial) ?_ h
      · intro q e q' _ ⟨camera, hc, hr, hv⟩ hq
        by_cases hne : ∀ selection event, e ≠ Event.ViewSelected selection event
        · obtain ⟨h1, h2, h3⟩ := handle_camera_frame T q q' e hq hne
          exact ⟨camera, h1 ▸ hc, h2 ▸ hr, h3 ▸ hv⟩
        · push_neg at hne
          obtain ⟨selection, event, rfl⟩ := hne
          simp only [VisualizationPanel.handle] at hq
          by_cases hs : ∃ v : View, selection = v.toInt
          · obtain ⟨v, hs⟩ := hs
            have hq2 := onViewSelected_of_view
              { q with views_selection_ := selection } event v hs
            rw [hq2] at hq
            simp only [Except.ok.injEq] at hq
            subst hq
            refine ⟨v.camera, rfl, rfl, ?_⟩
            intro w hw
            simp only [hs] at hw
            cases v <;> cases w <;> simp [View.toInt] at hw <;> rfl
          · push_neg at hs
            rw [onViewSelected_of_no_view { q with views_selection_ := selection } event hs] at hq
            simp only [hc, Except.ok.injEq] at hq
            subst hq
            refine ⟨camera, rfl, rfl, ?_⟩
            intro w hw
            exact absurd hw (hs w)
      · refine ⟨Camera.orbit_camera_, rfl, rfl, ?_⟩
        intro v hv
        cases v <;> first | rfl | simp [VisualizationPanel.construct, View.toInt] at hv
    obtain ⟨camera, hc, hr, hv⟩ := key
    refine ⟨camera, hc, hr, ?_, hv⟩
    cases camera <;> simp

/-- C6, at the example panel after the FPS view and then an entry that is no view
were chosen: the FPS camera is current and attached. -/
theorem current_camera_follows_views_witness :
    examplePanel.run exampleFlags
        [Event.ViewSelected 1 choiceEvent, Event.ViewSelected 5 choiceEvent] =
      Except.ok examplePanelAfterViews ∧
    ∃ camera, examplePanelAfterViews.current_camera_ = some camera ∧
      examplePanelAfterViews.render_panel_camera_ = some camera ∧
      (camera = Camera.orbit_camera_ ∨ camera = Camera.fps_camera_ ∨
        camera = Camera.top_down_ortho_) ∧
      ∀ v : View, examplePanelAfterViews.views_selection_ = v.toInt → camera = v.camera :=
  ⟨rfl,
   (current_camera_follows_views exampleFlags exampleManager ["Move", "Select"] 7
      [Event.ViewSelected 1 choiceEvent, Event.ViewSelected 5 choiceEvent]
      examplePanelAfterViews rfl).2.2⟩

/-! ## Deleting a display -/

/-- Removing a visualizer from the registry unregisters it and no other. -/
theorem removeVisualizer_isValidVisualizer (m : VisualizationManager) (v w : VisualizerPtr) :
    (m.removeVisualizer v).isValidVisualizer w = (m.isValidVisualizer w && !(w == v)) := by
  simp only [VisualizationManager.removeVisualizer, VisualizationManager.isValidVisualizer]
  rw [Bool.eq_iff_iff]
  simp only [List.any_eq_true, List.mem_filter, Bool.and_eq_true, Bool.not_eq_true',
    beq_iff_eq, beq_eq_false_iff_ne, ne_eq]
  constructor
  · rintro ⟨i, ⟨hi, hne⟩, hw⟩
    exact ⟨⟨i, hi, hw⟩, hw ▸ hne⟩
  · rintro ⟨⟨i, hi, hw⟩, hne⟩
    exact ⟨i, ⟨hi, hw ▸ hne⟩, hw⟩

/-- C2: `onDeleteDisplay` changes nothing, and calls nothing, when no visualizer is
selected; when one is selected it calls `removeVisualizer` once, with that visualizer,
which leaves the registry without it and with every other visualizer, and the selected
pointer is null afterwards; nothing else changes. -/
theorem onDeleteDisplay_removes_selected (p : VisualizationPanel) :
    (p.selected_visualizer_ = none → p.onDeleteDisplay = p) ∧
    (∀ selected, p.selected_visualizer_ = some selected →
      p.onDeleteDisplay =
        { p with
          manager_ := p.manager_.removeVisualizer selected
          selected_visualizer_ := none
          calls := p.calls ++ [Call.removeVisualizer selected] } ∧
      p.callsSince p.onDeleteDisplay = [Call.removeVisualizer selected] ∧
      p.onDeleteDisplay.selected_visualizer_ = none ∧
      p.onDeleteDisplay.manager_.isValidVisualizer selected = false ∧
      ∀ other, other ≠ selected →
        p.onDeleteDisplay.manager_.isValidVisualizer other =
          p.manager_.isValidVisualizer other) := by
  constructor
  · intro h
    simp [VisualizationPanel.onDeleteDisplay, h]
  · intro selected h
    have hd : p.onDeleteDisplay =
        { p with
          manager_ := p.manager_.removeVisualizer selected
          selected_visualizer_ := none
          calls := p.calls ++ [Call.removeVisualizer selected] } := by
      simp [VisualizationPanel.onDeleteDisplay, h]
    refine ⟨hd, ?_, ?_, ?_, ?_⟩
    · rw [hd]; simp [VisualizationPanel.callsSince]
    · rw [hd]
    · rw [hd]; simp [removeVisualizer_isValidVisualizer]
    · intro other hne
      rw [hd]
      simp [removeVisualizer_isValidVisualizer, hne]

/-- C2, at the freshly constructed example panel (nothing selected) and at the example
panel with the visualizer at address 1 selected. -/
theorem onDeleteDisplay_removes_selected_witness :
    examplePanel.onDeleteDisplay = examplePanel ∧
    examplePanelSelected.callsSince examplePanelSelected.onDeleteDisplay =
      [Call.removeVisualizer 1] ∧
    examplePanelSelected.onDeleteDisplay.selected_visualizer_ = none ∧
    examplePanelSelected.onDeleteDisplay.manager_.isValidVisualizer 1 = false :=
  ⟨(onDeleteDisplay_removes_selected examplePanel).1 rfl,
   ((onDeleteDisplay_removes_selected examplePanelSelected).2 1 rfl).2.1,
   ((onDeleteDisplay_removes_selected examplePanelSelected).2 1 rfl).2.2.1,
   ((onDeleteDisplay_removes_selected examplePanelSelected).2 1 rfl).2.2.2.1⟩

/-! ## The selected visualizer -/

/-- Setting the current tool leaves the registry of visualizers alone. -/
theorem setCurrentTool_visualizers (m : VisualizationManager) (tool : Option ToolPtr) :
    (m.setCurrentTool tool).visualizers_ = m.visualizers_ := rfl

/-- What every handler but `onPropertySelected` and `onDeleteDisplay` leaves alone:
the selected visualizer and the state of the delete button; and it keeps every
registered visualizer registered, with its permission to be deleted. -/
theorem handle_selected_frame (T : ToolFlags) (p p' : VisualizationPanel) (e : Event)
    (h : p.handle T e = Except.ok p')
    (hs : ∀ event, e ≠ Event.PropertySelected event) (hd : e ≠ Event.DeleteDisplay) :
    p'.selected_visualizer_ = p.selected_visualizer_ ∧
    p'.delete_display_ = p.delete_display_ ∧
    (∀ v, p.manager_.isValidVisualizer v = true → p'.manager_.isValidVisualizer v = true) ∧
    (∀ v, p.manager_.isDeletionAllowed v = true → p'.manager_.isDeletionAllowed v = true) := by
  cases e with
  | dispatchPending =>
    simp only [VisualizationPanel.handle, Except.ok.injEq] at h
    subst h
    simp only [VisualizationPanel.dispatchPending, VisualizationPanel.onRender]
    split
    · simp
    · split <;> simp
  | ToolClicked event =>
    simp only [VisualizationPanel.handle, Except.ok.injEq] at h
    subst h
    simp [VisualizationPanel.onToolClicked, VisualizationManager.isValidVisualizer,
      VisualizationManager.isDeletionAllowed, setCurrentTool_visualizers]
  | ViewSelected selection event =>
    simp only [VisualizationPanel.handle] at h
    by_cases hv : ∃ v : View, selection = v.toInt
    · obtain ⟨v, hv⟩ := hv
      have hq := onViewSelected_of_view
        { p with views_selection_ := selection } event v hv
      rw [hq] at h
      simp only [Except.ok.injEq] at h
      subst h
      simp
    · push_neg at hv
      rw [onViewSelected_of_no_view { p with views_selection_ := selection } event hv] at h
      cases hc : p.current_camera_ with
      | none => simp [hc] at h
      | some camera =>
        simp only [hc, Except.ok.injEq] at h
        subst h
        simp
  | PropertyChanging event =>
    simp only [VisualizationPanel.handle, Except.ok.injEq] at h
    subst h
    simp only [VisualizationPanel.onPropertyChanging]
    split <;> simp
  | PropertyChanged event =>
    simp only [VisualizationPanel.handle, Except.ok.injEq] at h
    subst h
    simp only [VisualizationPanel.onPropertyChanged, VisualizationPanel.queueRender]
    split <;> simp
  | PropertySelected event => exact absurd rfl (hs event)
  | RenderWindowMouseEvents event f =>
    simp only [VisualizationPanel.handle] at h
    cases ht : p.manager_.current_tool_ with
    | none => simp [onRenderWindowMouseEvents_of_no_tool T p event f ht] at h
    | some tool =>
      simp only [onRenderWindowMouseEvents_of_tool T p event f tool ht, Except.ok.injEq] at h
      subst h
      refine ⟨rfl, rfl, ?_, ?_⟩ <;>
      · intro v hv
        dsimp only
        split
        · simpa [VisualizationManager.isValidVisualizer,
            VisualizationManager.isDeletionAllowed, setCurrentTool_visualizers] using hv
        · exact hv
  | NewDisplay dialog =>
    simp only [VisualizationPanel.handle] at h
    obtain ⟨hf, hv, hda, _⟩ := onNewDisplay_frame p dialog
    rcases hnd : p.onNewDisplay dialog with ⟨q, _ | halt⟩
    · simp only [hnd, Except.ok.injEq] at h hf hv hda
      subst h
      refine ⟨?_, ?_, hv, hda⟩
      · rw [hf]
      · rw [hf]
    · simp [hnd] at h
  | DeleteDisplay => exact absurd rfl hd
  | VisualizerStateChanged visualizer property =>
    simp only [VisualizationPanel.handle, VisualizationPanel.onVisualizerStateChanged] at h
    split at h
    · simp at h
    · split at h <;>
      · simp only [Except.ok.injEq] at h
        subst h
        simp
  | addTool name =>
    simp only [VisualizationPanel.handle, Except.ok.injEq] at h
    subst h
    simp [VisualizationPanel.addTool]
  | setTool tool =>
    simp only [VisualizationPanel.handle, Except.ok.injEq] at h
    subst h
    rw [setTool_frame]
    simp
  | queueRender =>
    simp only [VisualizationPanel.handle, Except.ok.injEq] at h
    subst h
    simp [VisualizationPanel.queueRender]

/-- What `onPropertySelected` does, case by case: with `visualizer` the visualizer the
selected property carries, if any. -/
theorem onPropertySelected_eq (p : VisualizationPanel) (event : wxPropertyGridEvent) :
    p.onPropertySelected event =
      match event.visualizer with
      | none => { p with delete_display_ := false }
      | some visualizer =>
        if p.manager_.isValidVisualizer visualizer = true then
          { p with
            selected_visualizer_ := some visualizer
            delete_display_ := p.manager_.isDeletionAllowed visualizer }
        else { p with delete_display_ := false } := by
  rcases event with ⟨_ | ⟨_ | ⟨_ | visualizer⟩⟩⟩
  · rfl
  · rfl
  · rfl
  · simp only [VisualizationPanel.onPropertySelected, wxPropertyGridEvent.visualizer,
      Option.bind]
    by_cases hv : p.manager_.isValidVisualizer visualizer = true
    · by_cases hd : p.manager_.isDeletionAllowed visualizer = true
      · simp [hv, hd]
      · simp only [Bool.not_eq_true] at hd
        simp [hv, hd]
    · simp [hv]

/-- C5: in every state reached from construction through the handlers and methods of
the panel, the selected visualizer is null or a visualizer the manager reports as
valid. -/
theorem selected_visualizer_null_or_valid (T : ToolFlags) (manager : VisualizationManager)
    (tools : List String) (id : Int) (events : List Event) (p : VisualizationPanel)
    (h : (VisualizationPanel.construct manager tools id).run T events = Except.ok p) :
    p.selected_visualizer_ = none ∨
      ∃ v, p.selected_visualizer_ = some v ∧ p.manager_.isValidVisualizer v = true := by
  have key : ∀ v, p.selected_visualizer_ = some v → p.manager_.isValidVisualizer v = true := by
    refine run_induction T (fun _ => True)
      (fun p => ∀ v, p.selected_visualizer_ = some v → p.manager_.isValidVisualizer v = true)
      ?_ events _ p (fun _ _ => trivial) ?_ h
    · intro q e q' _ hq hh
      by_cases hs : ∃ event, e = Event.PropertySelected event
      · obtain ⟨event, rfl⟩ := hs
        simp only [VisualizationPanel.handle, Except.ok.injEq] at hh
        subst hh
        rw [onPropertySelected_eq]
        cases event.visualizer with
        | none => exact hq
        | some w =>
          by_cases hw : q.manager_.isValidVisualizer w = true
          · intro v hv
            simp only [hw, if_true, Option.some.injEq] at hv
            subst hv
            simp [hw]
          · simp only [hw]
            exact hq
      · by_cases hd : e = Event.DeleteDisplay
        · subst hd
          simp only [VisualizationPanel.handle, Except.ok.injEq] at hh
          subst hh
          intro v hv
          cases hsel : q.selected_visualizer_ <;>
            simp [VisualizationPanel.onDeleteDisplay, hsel] at hv
        · push_neg at hs
          obtain ⟨h1, _, h3, _⟩ := handle_selected_frame T q q' e hh hs hd
          intro v hv
          exact h3 v (hq v (h1 ▸ hv))
    · intro v hv
      simp [VisualizationPanel.construct] at hv
  cases hsel : p.selected_visualizer_ with
  | none => exact Or.inl rfl
  | some v => exact Or.inr ⟨v, rfl, key v hsel⟩

/-- C5, at the example panel after the visualizer at address 2 was selected and a
display was added. -/
theorem selected_visualizer_null_or_valid_witness :
    examplePanel.run exampleFlags
        [Event.PropertySelected (selectVisualizer 2),
         Event.NewDisplay [{ ShowModal := 4, getTypeName := "Grid", getVisualizerName := "map" }]] =
      Except.ok examplePanelAdded ∧
    (examplePanelAdded.selected_visualizer_ = none ∨
      ∃ v, examplePanelAdded.selected_visualizer_ = some v ∧
        examplePanelAdded.manager_.isValidVisualizer v = true) :=
  ⟨rfl,
   selected_visualizer_null_or_valid exampleFlags exampleManager ["Move", "Select"] 7
     [Event.PropertySelected (selectVisualizer 2),
      Event.NewDisplay [{ ShowModal := 4, getTypeName := "Grid", getVisualizerName := "map" }]]
     examplePanelAdded rfl⟩

/-! ## The delete button -/

/-- A run of events handled by `onPropertySelected` and `onDeleteDisplay` never halts. -/
theorem run_select_delete_ok (T : ToolFlags) :
    ∀ (events : List Event) (p : VisualizationPanel),
      (∀ e ∈ events, e.isPropertySelectedOrDeleteDisplay = true) →
      ∃ p', p.run T events = Except.ok p' := by
  intro events
  induction events with
  | nil => intro p _; exact ⟨p, rfl⟩
  | cons e es ih =>
    intro p hE
    have he := hE e (List.mem_cons_self _ _)
    have hes : ∀ x ∈ es, x.isPropertySelectedOrDeleteDisplay = true :=
      fun x hx => hE x (List.mem_cons_of_mem _ hx)
    cases e <;> simp only [Event.isPropertySelectedOrDeleteDisplay] at he <;>
      first
      | exact absurd he (by decide)
      | (simp only [VisualizationPanel.run, VisualizationPanel.handle]; exact ih _ hes)

/-- C9 as stated fails: after the deletable visualizer at address 1 of the example
manager is selected and then deleted, the delete button is still enabled and no
visualizer is selected. -/
theorem delete_display_enabled_without_selection :
    exampleManager.isValidVisualizer 1 = true ∧
    exampleManager.isDeletionAllowed 1 = true ∧
    examplePanel.run exampleFlags
        [Event.PropertySelected (selectVisualizer 1), Event.DeleteDisplay] =
      Except.ok examplePanelDeleted ∧
    examplePanelDeleted.delete_display_ = true ∧
    examplePanelDeleted.selected_visualizer_ = none ∧
    ¬ (examplePanelDeleted.delete_display_ = true →
        ∃ v, examplePanelDeleted.selected_visualizer_ = some v ∧
          examplePanelDeleted.manager_.isValidVisualizer v = true ∧
          examplePanelDeleted.manager_.isDeletionAllowed v = true) := by
  refine ⟨rfl, rfl, rfl, rfl, rfl, ?_⟩
  intro h
  obtain ⟨v, hv, _⟩ := h rfl
  have hnone : examplePanelDeleted.selected_visualizer_ = none := rfl
  rw [hnone] at hv
  exact Option.noConfusion hv

/-- C9, amended: a run of events handled by `onPropertySelected` and `onDeleteDisplay`
from construction never halts, and in the state it reaches, if the delete button is
enabled then the selected visualizer is null or is a visualizer the manager reports as
valid and as allowed to be deleted.  `onPropertySelected` leaves the button enabled if
and only if the selected property carries a visualizer that is valid and allowed to be
deleted, and that visualizer is then the selected one. -/
theorem delete_display_enabled_selected (T : ToolFlags) (manager : VisualizationManager)
    (tools : List String) (id : Int) (events : List Event)
    (hev : ∀ e ∈ events, e.isPropertySelectedOrDeleteDisplay = true) :
    (∃ p, (VisualizationPanel.construct manager tools id).run T events = Except.ok p ∧
      (p.delete_display_ = true →
        p.selected_visualizer_ = none ∨
          ∃ v, p.selected_visualizer_ = some v ∧
            p.manager_.isValidVisualizer v = true ∧
            p.manager_.isDeletionAllowed v = true)) ∧
    (∀ (q : VisualizationPanel) (event : wxPropertyGridEvent),
      ((q.onPropertySelected event).delete_display_ = true ↔
        ∃ v, event.visualizer = some v ∧ q.manager_.isValidVisualizer v = true ∧
          q.manager_.isDeletionAllowed v = true) ∧
      ((q.onPropertySelected event).delete_display_ = true →
        (q.onPropertySelected event).selected_visualizer_ = event.visualizer ∧
        (q.onPropertySelected event).manager_ = q.manager_)) := by
  constructor
  · obtain ⟨p, hp⟩ := run_select_delete_ok T events
      (VisualizationPanel.construct manager tools id) hev
    refine ⟨p, hp, ?_⟩
    have key : p.delete_display_ = true → ∀ v, p.selected_visualizer_ = some v →
        p.manager_.isValidVisualizer v = true ∧ p.manager_.isDeletionAllowed v = true := by
      refine run_induction T (fun e => e.isPropertySelectedOrDeleteDisplay = true)
        (fun p => p.delete_display_ = true → ∀ v, p.selected_visualizer_ = some v →
          p.manager_.isValidVisualizer v = true ∧ p.manager_.isDeletionAllowed v = true)
        ?_ events _ p hev ?_ hp
      · intro q e q' he hq hh
        cases e <;> simp only [Event.isPropertySelectedOrDeleteDisplay] at he <;>
          try exact absurd he (by decide)
        · rename_i event
          simp only [VisualizationPanel.handle, Except.ok.injEq] at hh
          subst hh
          rw [onPropertySelected_eq]
          cases event.visualizer with
          | none => intro hb; simp at hb
          | some w =>
            by_cases hw : q.manager_.isValidVisualizer w = true
            · simp only [hw, if_true]
              intro hb v hv
              simp only [Option.some.injEq] at hv
              subst hv
              exact ⟨hw, hb⟩
            · simp only [hw]
              intro hb
              simp at hb
        · simp only [VisualizationPanel.handle, Except.ok.injEq] at hh
          subst hh
          intro _ v hv
          cases hsel : q.selected_visualizer_ <;>
            simp [VisualizationPanel.onDeleteDisplay, hsel] at hv
      · intro hb
        simp [VisualizationPanel.construct] at hb
    intro hb
    cases hsel : p.selected_visualizer_ with
    | none => exact Or.inl rfl
    | some v => exact Or.inr ⟨v, rfl, key hb v hsel⟩
  · intro q event
    rw [onPropertySelected_eq]
    cases event.visualizer with
    | none => simp
    | some w =>
      by_cases hw : q.manager_.isValidVisualizer w = true
      · simp [hw]
      · simp [hw]

/-- C9 amended, at the run that refutes the claim as stated and at the selection of
the deletable visualizer of the example panel. -/
theorem delete_display_enabled_selected_witness :
    (∃ p, examplePanel.run exampleFlags
        [Event.PropertySelected (selectVisualizer 1), Event.DeleteDisplay] = Except.ok p ∧
      (p.delete_display_ = true →
        p.selected_visualizer_ = none ∨
          ∃ v, p.selected_visualizer_ = some v ∧
            p.manager_.isValidVisualizer v = true ∧
            p.manager_.isDeletionAllowed v = true)) ∧
    (examplePanel.onPropertySelected (selectVisualizer 1)).selected_visualizer_ = some 1 :=
  ⟨(delete_display_enabled_selected exampleFlags exampleManager ["Move", "Select"] 7
      [Event.PropertySelected (selectVisualizer 1), Event.DeleteDisplay]
      (by decide)).1,
   (((delete_display_enabled_selected exampleFlags exampleManager ["Move", "Select"] 7
      [Event.PropertySelected (selectVisualizer 1), Event.DeleteDisplay]
      (by decide)).2 examplePanel (selectVisualizer 1)).2 rfl).1⟩

/-! ## Mouse events and the flags of the tool -/

/-- Bitwise `and` of an integer with itself. -/
theorem land_self (x : Int) : Int.land x x = x := by
  cases x with
  | ofNat m => simp [Int.land]
  | negSucc m => simp [Int.land]

/-- Bitwise `and` of integers commutes. -/
theorem land_comm (x y : Int) : Int.land x y = Int.land y x := by
  cases x <;> cases y <;> simp [Int.land, Nat.and_comm, Nat.or_comm]

/-- Bitwise `and` with no bit set. -/
theorem zero_land (x : Int) : Int.land 0 x = 0 := by
  cases x with
  | ofNat m =>
    show Int.land (Int.ofNat 0) (Int.ofNat m) = 0
    simp [Int.land]
  | negSucc m =>
    show Int.land (Int.ofNat 0) (Int.negSucc m) = 0
    simp [Int.land, Nat.ldiff]

/-- Bitwise `and` with every bit set. -/
theorem neg_one_land (x : Int) : Int.land (-1) x = x := by
  cases x with
  | ofNat m =>
    show Int.land (Int.negSucc 0) (Int.ofNat m) = _
    simp [Int.land, Nat.ldiff]
  | negSucc m =>
    show Int.land (Int.negSucc 0) (Int.negSucc m) = _
    simp [Int.land]

/-- C4: with `flags` what the current tool returns from `processMouseEvent`,
`onRenderWindowMouseEvents` posts the render event if and only if
`flags & Tool::Render` is not zero, and sets the manager's current tool to the default
tool if and only if `flags & Tool::Finished` is not zero; these are all the calls it
makes after `processMouseEvent`.  When `Tool::Render` and `Tool::Finished` are not
zero and share no bit, each of the four combinations occurs for some flags. -/
theorem onRenderWindowMouseEvents_flags (T : ToolFlags) (p : VisualizationPanel)
    (event : wxMouseEvent) (processMouseEvent : ToolPtr → wxMouseEvent → Int → Int → Int)
    (tool : ToolPtr) (h : p.manager_.current_tool_ = some tool) :
    (∃ p', p.onRenderWindowMouseEvents T event processMouseEvent = Except.ok p' ∧
      p'.calls = p.calls ++ p.callsSince p' ∧
      p.callsSince p' =
        [Call.processMouseEvent tool event p.mouse_x_ p.mouse_y_] ++
        (if Int.land (processMouseEvent tool event p.mouse_x_ p.mouse_y_) T.Render ≠ 0 then
          [Call.wxPostEvent { type := wxEventType.EVT_RENDER, id := p.id_ }] else []) ++
        (if Int.land (processMouseEvent tool event p.mouse_x_ p.mouse_y_) T.Finished ≠ 0 then
          [Call.setCurrentTool p.manager_.default_tool_] else []) ∧
      ((∃ e, Call.wxPostEvent e ∈ p.callsSince p') ↔
        Int.land (processMouseEvent tool event p.mouse_x_ p.mouse_y_) T.Render ≠ 0) ∧
      ((∃ t, Call.setCurrentTool t ∈ p.callsSince p') ↔
        Int.land (processMouseEvent tool event p.mouse_x_ p.mouse_y_) T.Finished ≠ 0) ∧
      p'.pending_ = p.pending_ ++
        (if Int.land (processMouseEvent tool event p.mouse_x_ p.mouse_y_) T.Render ≠ 0 then
          [{ type := wxEventType.EVT_RENDER, id := p.id_ }] else []) ∧
      p'.manager_ =
        (if Int.land (processMouseEvent tool event p.mouse_x_ p.mouse_y_) T.Finished ≠ 0 then
          p.manager_.setCurrentTool p.manager_.default_tool_ else p.manager_)) ∧
    (T.Render ≠ 0 → T.Finished ≠ 0 → Int.land T.Render T.Finished = 0 →
      ∀ render finished : Bool, ∃ flags : Int, ∃ p',
        p.onRenderWindowMouseEvents T event (fun _ _ _ _ => flags) = Except.ok p' ∧
        ((∃ e, Call.wxPostEvent e ∈ p.callsSince p') ↔ render = true) ∧
        ((∃ t, Call.setCurrentTool t ∈ p.callsSince p') ↔ finished = true)) := by
  have main : ∀ g : ToolPtr → wxMouseEvent → Int → Int → Int,
      ∃ p', p.onRenderWindowMouseEvents T event g = Except.ok p' ∧
        p'.calls = p.calls ++ p.callsSince p' ∧
        p.callsSince p' =
          [Call.processMouseEvent tool event p.mouse_x_ p.mouse_y_] ++
          (if Int.land (g tool event p.mouse_x_ p.mouse_y_) T.Render ≠ 0 then
            [Call.wxPostEvent { type := wxEventType.EVT_RENDER, id := p.id_ }] else []) ++
          (if Int.land (g tool event p.mouse_x_ p.mouse_y_) T.Finished ≠ 0 then
            [Call.setCurrentTool p.manager_.default_tool_] else []) ∧
        ((∃ e, Call.wxPostEvent e ∈ p.callsSince p') ↔
          Int.land (g tool event p.mouse_x_ p.mouse_y_) T.Render ≠ 0) ∧
        ((∃ t, Call.setCurrentTool t ∈ p.callsSince p') ↔
          Int.land (g tool event p.mouse_x_ p.mouse_y_) T.Finished ≠ 0) ∧
        p'.pending_ = p.pending_ ++
          (if Int.land (g tool event p.mouse_x_ p.mouse_y_) T.Render ≠ 0 then
            [{ type := wxEventType.EVT_RENDER, id := p.id_ }] else []) ∧
        p'.manager_ =
          (if Int.land (g tool event p.mouse_x_ p.mouse_y_) T.Finished ≠ 0 then
            p.manager_.setCurrentTool p.manager_.default_tool_ else p.manager_) := by
    intro g
    refine ⟨_, onRenderWindowMouseEvents_of_tool T p event g tool h, ?_⟩
    refine ⟨?_, ?_, ?_, ?_, rfl, rfl⟩
    · simp [VisualizationPanel.callsSince, List.append_assoc]
    · simp [VisualizationPanel.callsSince, List.append_assoc]
    · simp [VisualizationPanel.callsSince, List.append_assoc]
    · simp [VisualizationPanel.callsSince, List.append_assoc]
  refine ⟨main processMouseEvent, ?_⟩
  intro hR hF hRF render finished
  have pick : ∃ flags : Int, (Int.land flags T.Render ≠ 0 ↔ render = true) ∧
      (Int.land flags T.Finished ≠ 0 ↔ finished = true) := by
    cases render <;> cases finished
    · exact ⟨0, by simp [zero_land], by simp [zero_land]⟩
    · exact ⟨T.Finished, by simp [land_comm T.Finished T.Render, hRF], by simp [land_self, hF]⟩
    · exact ⟨T.Render, by simp [land_self, hR], by simp [hRF]⟩
    · exact ⟨-1, by simp [neg_one_land, hR], by simp [neg_one_land, hF]⟩
  obtain ⟨flags, h1, h2⟩ := pick
  obtain ⟨p', hp', _, _, h3, h4, _⟩ := main (fun _ _ _ _ => flags)
  exact ⟨flags, p', hp', h3.trans h1, h4.trans h2⟩

/-- C4, at the example panel with the flags 1 (render only), and with `Render = 1`,
`Finished = 2`. -/
theorem onRenderWindowMouseEvents_flags_witness :
    (∃ p', examplePanel.onRenderWindowMouseEvents exampleFlags { x := 3, y := 4 }
        (fun _ _ _ _ => 1) = Except.ok p' ∧
      ((∃ e, Call.wxPostEvent e ∈ examplePanel.callsSince p') ↔
        Int.land 1 exampleFlags.Render ≠ 0) ∧
      ((∃ t, Call.setCurrentTool t ∈ examplePanel.callsSince p') ↔
        Int.land 1 exampleFlags.Finished ≠ 0)) ∧
    (∀ render finished : Bool, ∃ flags : Int, ∃ p',
      examplePanel.onRenderWindowMouseEvents exampleFlags { x := 3, y := 4 }
        (fun _ _ _ _ => flags) = Except.ok p' ∧
      ((∃ e, Call.wxPostEvent e ∈ examplePanel.callsSince p') ↔ render = true) ∧
      ((∃ t, Call.setCurrentTool t ∈ examplePanel.callsSince p') ↔ finished = true)) :=
  ⟨by
    obtain ⟨p', h1, _, _, h2, h3, _⟩ :=
      (onRenderWindowMouseEvents_flags exampleFlags examplePanel { x := 3, y := 4 }
        (fun _ _ _ _ => 1) 10 rfl).1
    exact ⟨p', h1, h2, h3⟩,
   (onRenderWindowMouseEvents_flags exampleFlags examplePanel { x := 3, y := 4 }
      (fun _ _ _ _ => 1) 10 rfl).2 (by decide) (by decide) (by decide)⟩

/-! ## The toolbar -/

/-- The loop of `setTool`, entered at `i` with `count - i` iterations to go, when no
index below `i` holds the tool: it toggles the first index that holds the tool, and
returns the state as it is when there is none. -/
theorem setTool_for_first (p : VisualizationPanel) (tool : Option ToolPtr) (count : Nat) :
    ∀ remaining i, remaining + i = count →
      (∀ k, i ≤ k → k < count → p.manager_.getTool k = tool →
        (∀ j, i ≤ j → j < k → p.manager_.getTool j ≠ tool) →
        p.setTool_for tool count remaining i =
          { p with calls := p.calls ++ [Call.ToggleTool k true] }) ∧
      ((∀ k, i ≤ k → k < count → p.manager_.getTool k ≠ tool) →
        p.setTool_for tool count remaining i = p) := by
  intro remaining
  induction remaining with
  | zero =>
    intro i hi
    constructor
    · intro k hik hk
      omega
    · intro _
      rfl
  | succ r ih =>
    intro i hi
    have hlt : i < count := by omega
    obtain ⟨ih1, ih2⟩ := ih (i + 1) (by omega)
    constructor
    · intro k hik hk hkt hfirst
      simp only [VisualizationPanel.setTool_for, hlt, if_true]
      by_cases hit : p.manager_.getTool i = tool
      · have hki : k = i := by
          by_contra hne
          exact hfirst i (le_refl i) (by omega) hit
        simp [hit, hki]
      · have hne : k ≠ i := by
          intro hki
          exact hit (hki ▸ hkt)
        simp only [hit, if_false]
        exact ih1 k (by omega) hk hkt (fun j hj hjk => hfirst j (by omega) hjk)
    · intro hnone
      simp only [VisualizationPanel.setTool_for, hlt, if_true]
      have hit : p.manager_.getTool i ≠ tool := hnone i (le_refl i) hlt
      simp only [hit, if_false]
      exact ih2 (fun k hk hkc => hnone k (by omega) hkc)

/-- C10: with `n` the number of tools of the toolbar, `setTool` calls
`ToggleTool( i, true )` once, for the smallest index `i < n` at which the manager's
`getTool` gives the tool, and makes no other call and changes nothing else; when no
index below `n` holds the tool it changes nothing at all.  The manager, so its current
tool, is unchanged in both cases. -/
theorem setTool_toggles_first (p : VisualizationPanel) (tool : Option ToolPtr) :
    (∀ i : Nat, i < p.tools_.length → p.manager_.getTool i = tool →
      (∀ j : Nat, j < i → p.manager_.getTool j ≠ tool) →
      p.setTool tool = { p with calls := p.calls ++ [Call.ToggleTool i true] } ∧
      p.callsSince (p.setTool tool) = [Call.ToggleTool i true]) ∧
    ((∀ i : Nat, i < p.tools_.length → p.manager_.getTool i ≠ tool) →
      p.setTool tool = p) ∧
    (p.setTool tool).manager_ = p.manager_ ∧
    (p.setTool tool).manager_.current_tool_ = p.manager_.current_tool_ ∧
    (p.setTool tool).tools_ = p.tools_ := by
  obtain ⟨h1, h2⟩ := setTool_for_first p tool p.tools_.length p.tools_.length 0 (by omega)
  refine ⟨?_, ?_, ?_, ?_, ?_⟩
  · intro i hi hit hfirst
    have he : p.setTool tool = { p with calls := p.calls ++ [Call.ToggleTool i true] } :=
      h1 i (Nat.zero_le i) hi hit (fun j _ hj => hfirst j hj)
    refine ⟨he, ?_⟩
    rw [he]
    simp [VisualizationPanel.callsSince]
  · intro hnone
    exact h2 (fun k _ hk => hnone k hk)
  · rw [setTool_frame]
  · rw [setTool_frame]
  · rw [setTool_frame]

/-- C10, at the example panel: the tool at address 11 is at index 1 of the manager's
tools, and no tool is at address 12. -/
theorem setTool_toggles_first_witness :
    (examplePanel.setTool (some 11) =
        { examplePanel with calls := examplePanel.calls ++ [Call.ToggleTool 1 true] } ∧
      examplePanel.callsSince (examplePanel.setTool (some 11)) = [Call.ToggleTool 1 true]) ∧
    examplePanel.setTool (some 12) = examplePanel :=
  ⟨(setTool_toggles_first examplePanel (some 11)).1 1 (by decide) rfl
      (by intro j hj; interval_cases j; decide),
   (setTool_toggles_first examplePanel (some 12)).2.1
      (by intro i hi
          have hi2 : i < 2 := hi
          interval_cases i <;> decide)⟩

/-! ## Adding a display -/

/-- The loop of `onNewDisplay` on answers that are all OK with a registered name: one
iteration each, which ends in `continue`, and the loop goes on with the next answer. -/
theorem onNewDisplay_while_duplicates :
    ∀ (dups : List DialogOutcome) (p : VisualizationPanel) (rest : List DialogOutcome),
      (∀ d ∈ dups, d.isDuplicate p.manager_ = true) →
      p.onNewDisplay_while (dups ++ rest) =
        VisualizationPanel.onNewDisplay_while
          { p with calls := p.calls ++ duplicateCalls p.manager_ dups } rest := by
  intro dups
  induction dups with
  | nil => intro p rest _; simp [duplicateCalls]
  | cons d later ih =>
    intro p rest h
    have hd := h d (List.mem_cons_self _ _)
    simp only [DialogOutcome.isDuplicate, Bool.and_eq_true, beq_iff_eq,
      Option.isSome_iff_ne_none] at hd
    obtain ⟨hok, hfound⟩ := hd
    simp only [List.cons_append, VisualizationPanel.onNewDisplay_while, hok, if_true]
    simp only [ne_eq, hfound, not_false_eq_true, if_true]
    have hih := ih
      { p with calls := p.calls ++ [Call.ShowModal wxOK] ++
          [Call.getVisualizer d.getVisualizerName
            (p.manager_.getVisualizer d.getVisualizerName)] ++
          [Call.wxMessageBox "A visualizer with that name already exists!" "Invalid name"] }
      rest (fun x hx => h x (List.mem_cons_of_mem _ hx))
    simp only [List.append_assoc, List.singleton_append] at hih
    simp only [List.append_eq, duplicateCalls, hok, List.append_assoc, List.singleton_append,
      List.cons_append, List.nil_append]
    exact hih

/-- The calls of the loop of `onNewDisplay`: at most one is `createVisualizer`, and
that one is the last call, made with `true, true` and a name for which the call just
before it, `getVisualizer`, gave null. -/
theorem onNewDisplay_while_calls :
    ∀ (dialog : List DialogOutcome) (p : VisualizationPanel),
      ∃ made, (p.onNewDisplay_while dialog).1.calls = p.calls ++ made ∧
        made.countP Call.isCreateVisualizer ≤ 1 ∧
        (made.countP Call.isCreateVisualizer = 0 →
          (p.onNewDisplay_while dialog).1.manager_ = p.manager_) ∧
        ∀ type name enabled allow_deletion,
          Call.createVisualizer type name enabled allow_deletion ∈ made →
          p.manager_.getVisualizer name = none ∧ enabled = true ∧ allow_deletion = true ∧
          List.IsSuffix
            [Call.getVisualizer name none,
             Call.createVisualizer type name enabled allow_deletion] made := by
  intro dialog
  induction dialog with
  | nil =>
    intro p
    exact ⟨[], by simp [VisualizationPanel.onNewDisplay_while]⟩
  | cons d later ih =>
    intro p
    simp only [VisualizationPanel.onNewDisplay_while]
    by_cases hok : d.ShowModal = wxOK
    · simp only [hok, if_true]
      by_cases hfound : p.manager_.getVisualizer d.getVisualizerName = none
      · simp only [ne_eq, hfound, not_true_eq_false, if_false]
        refine ⟨[Call.ShowModal wxOK, Call.getVisualizer d.getVisualizerName none,
          Call.createVisualizer d.getTypeName d.getVisualizerName true true], ?_, ?_, ?_, ?_⟩
        · split <;> simp
        · simp [List.countP_cons, Call.isCreateVisualizer]
        · simp [List.countP_cons, Call.isCreateVisualizer]
        · intro type name enabled allow_deletion hmem
          simp only [List.mem_cons, List.mem_singleton, Call.createVisualizer.injEq,
            List.not_mem_nil, or_false, false_or, reduceCtorEq] at hmem
          obtain ⟨rfl, rfl, rfl, rfl⟩ := hmem
          exact ⟨hfound, rfl, rfl, ⟨[Call.ShowModal wxOK], rfl⟩⟩
      · simp only [ne_eq, hfound, not_false_eq_true, if_true]
        obtain ⟨made, h1, h2, h3, h4⟩ := ih
          { p with calls := p.calls ++ [Call.ShowModal wxOK] ++
              [Call.getVisualizer d.getVisualizerName
                (p.manager_.getVisualizer d.getVisualizerName)] ++
              [Call.wxMessageBox "A visualizer with that name already exists!"
                "Invalid name"] }
        refine ⟨[Call.ShowModal wxOK,
          Call.getVisualizer d.getVisualizerName
            (p.manager_.getVisualizer d.getVisualizerName),
          Call.wxMessageBox "A visualizer with that name already exists!" "Invalid name"] ++
          made, ?_, ?_, ?_, ?_⟩
        · rw [h1]; simp [List.append_assoc]
        · simpa [List.countP_append, List.countP_cons, Call.isCreateVisualizer] using h2
        · intro hz
          apply h3
          simpa [List.countP_append, List.countP_cons, Call.isCreateVisualizer] using hz
        · intro type name enabled allow_deletion hmem
          simp only [List.cons_append, List.nil_append, List.mem_cons, reduceCtorEq,
            false_or] at hmem
          obtain ⟨k1, k2, k3, k4⟩ := h4 type name enabled allow_deletion hmem
          exact ⟨k1, k2, k3, k4.trans (List.suffix_append _ _)⟩
    · simp only [hok, if_false]
      exact ⟨[Call.ShowModal d.ShowModal], rfl,
        by simp [List.countP_cons, Call.isCreateVisualizer], fun _ => trivial,
        by simp⟩

/-- C3: whatever answers the dialog is given, the calls `onNewDisplay` makes contain
at most one `createVisualizer`, which is then the last call, made with a name for which
`getVisualizer` just gave null; without it the manager is unchanged.  After answers
that are all OK with a registered name, each of which shows the dialog, looks the name
up and shows the error, the loop prompts again: an answer that is not OK ends the
handler with nothing created, an OK answer with an unregistered name creates that
visualizer and ends the handler, and with no further answer the dialog stays open. -/
theorem onNewDisplay_creates_once (p : VisualizationPanel) (dialog : List DialogOutcome) :
    (∃ made, (p.onNewDisplay dialog).1.calls = p.calls ++ made ∧
      made.countP Call.isCreateVisualizer ≤ 1 ∧
      (made.countP Call.isCreateVisualizer = 0 →
        (p.onNewDisplay dialog).1.manager_ = p.manager_) ∧
      ∀ type name enabled allow_deletion,
        Call.createVisualizer type name enabled allow_deletion ∈ made →
        p.manager_.getVisualizer name = none ∧ enabled = true ∧ allow_deletion = true ∧
        List.IsSuffix
          [Call.getVisualizer name none,
           Call.createVisualizer type name enabled allow_deletion] made) ∧
    (∀ dups : List DialogOutcome, (∀ d ∈ dups, d.isDuplicate p.manager_ = true) →
      (∀ rest, p.onNewDisplay (dups ++ rest) =
        VisualizationPanel.onNewDisplay_while
          { p with calls := p.calls ++ [Call.NewDisplayDialog p.manager_.registered_types_] ++
              duplicateCalls p.manager_ dups } rest) ∧
      (∀ d later, d.ShowModal ≠ wxOK →
        p.onNewDisplay (dups ++ d :: later) =
          ({ p with calls := p.calls ++ [Call.NewDisplayDialog p.manager_.registered_types_] ++
              duplicateCalls p.manager_ dups ++ [Call.ShowModal d.ShowModal] }, none)) ∧
      (∀ d later, d.ShowModal = wxOK → p.manager_.getVisualizer d.getVisualizerName = none →
        p.onNewDisplay (dups ++ d :: later) =
          ({ p with
              manager_ :=
                (p.manager_.createVisualizer d.getTypeName d.getVisualizerName true true).2
              calls := p.calls ++ [Call.NewDisplayDialog p.manager_.registered_types_] ++
                duplicateCalls p.manager_ dups ++
                [Call.ShowModal wxOK, Call.getVisualizer d.getVisualizerName none,
                 Call.createVisualizer d.getTypeName d.getVisualizerName true true] },
           if (p.manager_.createVisualizer d.getTypeName d.getVisualizerName true true).1 = none
           then some Halt.assertion_failed else none)) ∧
      p.onNewDisplay dups =
        ({ p with calls := p.calls ++ [Call.NewDisplayDialog p.manager_.registered_types_] ++
            duplicateCalls p.manager_ dups }, some Halt.dialog_open)) := by
  constructor
  · obtain ⟨made, h1, h2, h3, h4⟩ := onNewDisplay_while_calls dialog
      { p with calls := p.calls ++ [Call.NewDisplayDialog p.manager_.registered_types_] }
    refine ⟨[Call.NewDisplayDialog p.manager_.registered_types_] ++ made, ?_, ?_, ?_, ?_⟩
    · simp only [VisualizationPanel.onNewDisplay]
      rw [h1]; simp [List.append_assoc]
    · simpa [List.countP_append, List.countP_cons, Call.isCreateVisualizer] using h2
    · intro hz
      simp only [VisualizationPanel.onNewDisplay]
      apply h3
      simpa [List.countP_append, List.countP_cons, Call.isCreateVisualizer] using hz
    · intro type name enabled allow_deletion hmem
      simp only [List.singleton_append, List.mem_cons, reduceCtorEq, false_or] at hmem
      obtain ⟨k1, k2, k3, k4⟩ := h4 type name enabled allow_deletion hmem
      exact ⟨k1, k2, k3, k4.trans (List.suffix_append _ _)⟩
  · intro dups hdups
    have hloop : ∀ rest, p.onNewDisplay (dups ++ rest) =
        VisualizationPanel.onNewDisplay_while
          { p with calls := p.calls ++ [Call.NewDisplayDialog p.manager_.registered_types_] ++
              duplicateCalls p.manager_ dups } rest := by
      intro rest
      simp only [VisualizationPanel.onNewDisplay]
      exact onNewDisplay_while_duplicates dups
        { p with calls := p.calls ++ [Call.NewDisplayDialog p.manager_.registered_types_] }
        rest hdups
    refine ⟨hloop, ?_, ?_, ?_⟩
    · intro d later hd
      rw [hloop]
      simp [VisualizationPanel.onNewDisplay_while, hd]
    · intro d later hd hfresh
      rw [hloop]
      simp only [VisualizationPanel.onNewDisplay_while, hd, if_true, hfresh, ne_eq,
        not_true_eq_false, if_false]
      cases hc : (p.manager_.createVisualizer d.getTypeName d.getVisualizerName true true).1 <;>
        simp [List.append_assoc]
    · have := hloop []
      simp only [List.append_nil] at this
      rw [this]
      simp [VisualizationPanel.onNewDisplay_while]

/-- C3, at the example panel: the name "grid" is taken, so the dialog is shown again,
and the name "map" is not, so the visualizer is created. -/
theorem onNewDisplay_creates_once_witness :
    examplePanel.onNewDisplay
        ([{ ShowModal := 4, getTypeName := "Grid", getVisualizerName := "grid" }] ++
          [{ ShowModal := 4, getTypeName := "Grid", getVisualizerName := "map" }]) =
      ({ examplePanel with
          manager_ := (exampleManager.createVisualizer "Grid" "map" true true).2
          calls := examplePanel.calls ++ [Call.NewDisplayDialog ["Grid", "Axes"]] ++
            [Call.ShowModal 4, Call.getVisualizer "grid" (some 1),
             Call.wxMessageBox "A visualizer with that name already exists!" "Invalid name"] ++
            [Call.ShowModal 4, Call.getVisualizer "map" none,
             Call.createVisualizer "Grid" "map" true true] },
       none) :=
  ((onNewDisplay_creates_once examplePanel []).2
      [{ ShowModal := 4, getTypeName := "Grid", getVisualizerName := "grid" }]
      (by decide)).2.2.1
    { ShowModal := 4, getTypeName := "Grid", getVisualizerName := "map" } [] rfl rfl

/-! ## Quiet handlers -/

/-- The loop of `setTool` makes only quiet calls. -/
theorem setTool_for_quiet (p : VisualizationPanel) (tool : Option ToolPtr) (count : Nat) :
    ∀ remaining i, ∃ made,
      (p.setTool_for tool count remaining i).calls = p.calls ++ made ∧
      ∀ c ∈ made, c.isQuiet = true := by
  intro remaining
  induction remaining with
  | zero => intro i; exact ⟨[], by simp [VisualizationPanel.setTool_for]⟩
  | succ r ih =>
    intro i
    simp only [VisualizationPanel.setTool_for]
    split
    · split
      · exact ⟨[Call.ToggleTool i true], rfl, by simp [Call.isQuiet, Call.isRefresh,
          Call.isPostEvent, Call.mouse?]⟩
      · exact ih (i + 1)
    · exact ⟨[], by simp⟩

/-- The loop of `onNewDisplay` makes only quiet calls. -/
theorem onNewDisplay_while_quiet :
    ∀ (dialog : List DialogOutcome) (p : VisualizationPanel), ∃ made,
      (p.onNewDisplay_while dialog).1.calls = p.calls ++ made ∧
      ∀ c ∈ made, c.isQuiet = true := by
  intro dialog
  induction dialog with
  | nil => intro p; exact ⟨[], by simp [VisualizationPanel.onNewDisplay_while]⟩
  | cons d later ih =>
    intro p
    simp only [VisualizationPanel.onNewDisplay_while]
    split
    · split
      · obtain ⟨made, h1, h2⟩ := ih
          { p with calls := p.calls ++ [Call.ShowModal d.ShowModal] ++
              [Call.getVisualizer d.getVisualizerName
                (p.manager_.getVisualizer d.getVisualizerName)] ++
              [Call.wxMessageBox "A visualizer with that name already exists!"
                "Invalid name"] }
        refine ⟨[Call.ShowModal d.ShowModal,
          Call.getVisualizer d.getVisualizerName
            (p.manager_.getVisualizer d.getVisualizerName),
          Call.wxMessageBox "A visualizer with that name already exists!" "Invalid name"] ++
          made, ?_, ?_⟩
        · rw [h1]; simp [List.append_assoc]
        · intro c hc
          simp only [List.cons_append, List.nil_append, List.mem_cons] at hc
          rcases hc with rfl | rfl | rfl | hc
          · rfl
          · rfl
          · rfl
          · exact h2 c hc
      · refine ⟨[Call.ShowModal d.ShowModal,
          Call.getVisualizer d.getVisualizerName
            (p.manager_.getVisualizer d.getVisualizerName),
          Call.createVisualizer d.getTypeName d.getVisualizerName true true], ?_, ?_⟩
        · split <;> simp
        · intro c hc
          simp only [List.mem_cons, List.mem_singleton, List.not_mem_nil, or_false] at hc
          rcases hc with rfl | rfl | rfl <;> rfl
    · exact ⟨[Call.ShowModal d.ShowModal], rfl, by simp [Call.isQuiet, Call.isRefresh,
        Call.isPostEvent, Call.mouse?]⟩

/-- A quiet event leaves the pending events and the stored mouse coordinates alone, and
its handler makes only quiet calls. -/
theorem handle_quiet (T : ToolFlags) (p p' : VisualizationPanel) (e : Event)
    (hq : e.isQuiet = true) (h : p.handle T e = Except.ok p') :
    p'.pending_ = p.pending_ ∧ p'.mouse_x_ = p.mouse_x_ ∧ p'.mouse_y_ = p.mouse_y_ ∧
    ∃ made, p'.calls = p.calls ++ made ∧ ∀ c ∈ made, c.isQuiet = true := by
  cases e with
  | dispatchPending => simp [Event.isQuiet] at hq
  | PropertyChanged event => simp [Event.isQuiet] at hq
  | RenderWindowMouseEvents event f => simp [Event.isQuiet] at hq
  | queueRender => simp [Event.isQuiet] at hq
  | ToolClicked event =>
    simp only [VisualizationPanel.handle, Except.ok.injEq] at h
    subst h
    exact ⟨rfl, rfl, rfl, [Call.setCurrentTool (p.manager_.getTool event.id)], rfl,
      by simp [Call.isQuiet, Call.isRefresh, Call.isPostEvent, Call.mouse?]⟩
  | ViewSelected selection event =>
    simp only [VisualizationPanel.handle] at h
    by_cases hv : ∃ v : View, selection = v.toInt
    · obtain ⟨v, hv⟩ := hv
      have hq2 := onViewSelected_of_view { p with views_selection_ := selection } event v hv
      rw [hq2] at h
      simp only [Except.ok.injEq] at h
      subst h
      refine ⟨rfl, rfl, rfl, _, by simp only [List.append_assoc]; rfl, ?_⟩
      intro c hc
      simp only [List.mem_append, List.mem_singleton] at hc
      rcases hc with hc | rfl
      · split at hc
        · simp only [List.mem_singleton] at hc
          subst hc
          rfl
        · simp at hc
      · rfl
    · push_neg at hv
      rw [onViewSelected_of_no_view { p with views_selection_ := selection } event hv] at h
      cases hc : p.current_camera_ with
      | none => simp [hc] at h
      | some camera =>
        simp only [hc, Except.ok.injEq] at h
        subst h
        exact ⟨rfl, rfl, rfl, [Call.render_panel_setCamera camera], rfl,
          by simp [Call.isQuiet, Call.isRefresh, Call.isPostEvent, Call.mouse?]⟩
  | PropertyChanging event =>
    simp only [VisualizationPanel.handle, Except.ok.injEq] at h
    subst h
    simp only [VisualizationPanel.onPropertyChanging]
    split
    · exact ⟨rfl, rfl, rfl, [], by simp⟩
    · exact ⟨rfl, rfl, rfl, [Call.propertyChanging event], rfl,
        by simp [Call.isQuiet, Call.isRefresh, Call.isPostEvent, Call.mouse?]⟩
  | PropertySelected event =>
    simp only [VisualizationPanel.handle, Except.ok.injEq] at h
    subst h
    rw [onPropertySelected_eq]
    cases event.visualizer with
    | none => exact ⟨rfl, rfl, rfl, [], by simp⟩
    | some v =>
      dsimp only
      split <;> exact ⟨rfl, rfl, rfl, [], by simp⟩
  | NewDisplay dialog =>
    simp only [VisualizationPanel.handle] at h
    have hf := (onNewDisplay_frame p dialog).1
    obtain ⟨made, h1, h2⟩ := onNewDisplay_while_quiet dialog
      { p with calls := p.calls ++ [Call.NewDisplayDialog p.manager_.registered_types_] }
    have h1' : (p.onNewDisplay dialog).1.calls =
        p.calls ++ ([Call.NewDisplayDialog p.manager_.registered_types_] ++ made) := by
      simp only [VisualizationPanel.onNewDisplay]
      rw [h1]; simp [List.append_assoc]
    rcases hnd : p.onNewDisplay dialog with ⟨q, _ | halt⟩
    · simp only [hnd, Except.ok.injEq] at h hf h1'
      subst h
      refine ⟨by rw [hf], by rw [hf], by rw [hf], _, h1', ?_⟩
      intro c hc
      simp only [List.singleton_append, List.mem_cons] at hc
      rcases hc with rfl | hc
      · rfl
      · exact h2 c hc
    · simp [hnd] at h
  | DeleteDisplay =>
    simp only [VisualizationPanel.handle, Except.ok.injEq] at h
    subst h
    simp only [VisualizationPanel.onDeleteDisplay]
    split
    · exact ⟨rfl, rfl, rfl, [], by simp⟩
    · rename_i selected _
      exact ⟨rfl, rfl, rfl, [Call.removeVisualizer selected], rfl,
        by simp [Call.isQuiet, Call.isRefresh, Call.isPostEvent, Call.mouse?]⟩
  | VisualizerStateChanged visualizer property =>
    simp only [VisualizationPanel.handle, VisualizationPanel.onVisualizerStateChanged] at h
    split at h
    · simp at h
    · split at h <;>
      · simp only [Except.ok.injEq] at h
        subst h
        exact ⟨rfl, rfl, rfl, _, rfl,
          by simp [Call.isQuiet, Call.isRefresh, Call.isPostEvent, Call.mouse?]⟩
  | addTool name =>
    simp only [VisualizationPanel.handle, Except.ok.injEq] at h
    subst h
    exact ⟨rfl, rfl, rfl, [Call.AddRadioTool p.tools_.length name], rfl,
      by simp [Call.isQuiet, Call.isRefresh, Call.isPostEvent, Call.mouse?]⟩
  | setTool tool =>
    simp only [VisualizationPanel.handle, Except.ok.injEq] at h
    subst h
    obtain ⟨made, h1, h2⟩ := setTool_for_quiet p tool p.tools_.length p.tools_.length 0
    refine ⟨by rw [setTool_frame], by rw [setTool_frame], by rw [setTool_frame], made, h1, h2⟩

/-- Quiet calls change none of the counts and none of the calls to tools. -/
theorem quiet_calls (made : List Call) (h : ∀ c ∈ made, c.isQuiet = true) :
    made.countP Call.isRefresh = 0 ∧ made.countP Call.isPostEvent = 0 ∧
    made.filterMap Call.mouse? = [] := by
  induction made with
  | nil => simp
  | cons c cs ih =>
    obtain ⟨i1, i2, i3⟩ := ih (fun x hx => h x (List.mem_cons_of_mem _ hx))
    have hc := h c (List.mem_cons_self _ _)
    simp only [Call.isQuiet, Bool.and_eq_true, Bool.not_eq_true', Option.isNone_iff_eq_none] at hc
    obtain ⟨⟨hr, hp⟩, hm⟩ := hc
    simp [List.countP_cons, List.filterMap_cons, hr, hp, hm, i1, i2, i3]

/-! ## Deferred rendering -/

/-- Every handler but the dispatch of a pending event appends its calls, and none of
them is a refresh. -/
theorem handle_no_refresh (T : ToolFlags) (p p' : VisualizationPanel) (e : Event)
    (hne : e ≠ Event.dispatchPending) (h : p.handle T e = Except.ok p') :
    p'.calls = p.calls ++ p.callsSince p' ∧ (p.callsSince p').countP Call.isRefresh = 0 := by
  have key : ∃ made, p'.calls = p.calls ++ made ∧ made.countP Call.isRefresh = 0 := by
    by_cases hq : e.isQuiet = true
    · obtain ⟨_, _, _, made, h1, h2⟩ := handle_quiet T p p' e hq h
      exact ⟨made, h1, (quiet_calls made h2).1⟩
    · cases e with
      | dispatchPending => exact absurd rfl hne
      | PropertyChanged event =>
        simp only [VisualizationPanel.handle, Except.ok.injEq] at h
        subst h
        simp only [VisualizationPanel.onPropertyChanged, VisualizationPanel.queueRender]
        split
        · exact ⟨[], by simp⟩
        · exact ⟨[Call.propertyChanged event,
            Call.wxPostEvent { type := wxEventType.EVT_RENDER, id := p.id_ }],
            by simp [List.append_assoc], by simp [List.countP_cons, Call.isRefresh]⟩
      | RenderWindowMouseEvents event f =>
        simp only [VisualizationPanel.handle] at h
        cases ht : p.manager_.current_tool_ with
        | none => simp [onRenderWindowMouseEvents_of_no_tool T p event f ht] at h
        | some tool =>
          simp only [onRenderWindowMouseEvents_of_tool T p event f tool ht,
            Except.ok.injEq] at h
          subst h
          refine ⟨_, by simp only [List.append_assoc]; rfl, ?_⟩
          by_cases hr : Int.land (f tool event p.mouse_x_ p.mouse_y_) T.Render = 0 <;>
            by_cases hf : Int.land (f tool event p.mouse_x_ p.mouse_y_) T.Finished = 0 <;>
            simp [hr, hf, List.countP_cons, Call.isRefresh]
      | queueRender =>
        simp only [VisualizationPanel.handle, Except.ok.injEq] at h
        subst h
        exact ⟨[Call.wxPostEvent { type := wxEventType.EVT_RENDER, id := p.id_ }], rfl,
          by simp [List.countP_cons, Call.isRefresh]⟩
      | ToolClicked _ => simp [Event.isQuiet] at hq
      | ViewSelected _ _ => simp [Event.isQuiet] at hq
      | PropertyChanging _ => simp [Event.isQuiet] at hq
      | PropertySelected _ => simp [Event.isQuiet] at hq
      | NewDisplay _ => simp [Event.isQuiet] at hq
      | DeleteDisplay => simp [Event.isQuiet] at hq
      | VisualizerStateChanged _ _ => simp [Event.isQuiet] at hq
      | addTool _ => simp [Event.isQuiet] at hq
      | setTool _ => simp [Event.isQuiet] at hq
  obtain ⟨made, h1, h2⟩ := key
  rw [callsSince_of_append p p' made h1]
  exact ⟨h1, h2⟩

/-- Every handled event keeps the account of the redraws: the refreshes made and the
events still pending are as many as the events posted, and the pending events are
render events. -/
theorem handle_render_account (T : ToolFlags) (p p' : VisualizationPanel) (e : Event)
    (hp : p.calls.countP Call.isRefresh + p.pending_.length = p.calls.countP Call.isPostEvent ∧
      ∀ ev ∈ p.pending_, ev.type = wxEventType.EVT_RENDER)
    (h : p.handle T e = Except.ok p') :
    p'.calls.countP Call.isRefresh + p'.pending_.length = p'.calls.countP Call.isPostEvent ∧
      ∀ ev ∈ p'.pending_, ev.type = wxEventType.EVT_RENDER := by
  obtain ⟨hcount, hpend⟩ := hp
  by_cases hq : e.isQuiet = true
  · obtain ⟨h0, _, _, made, h1, h2⟩ := handle_quiet T p p' e hq h
    obtain ⟨q1, q2, _⟩ := quiet_calls made h2
    rw [h0, h1]
    simp only [List.countP_append, q1, q2, Nat.add_zero]
    exact ⟨hcount, hpend⟩
  · cases e with
    | dispatchPending =>
      simp only [VisualizationPanel.handle, Except.ok.injEq] at h
      subst h
      simp only [VisualizationPanel.dispatchPending, VisualizationPanel.onRender]
      cases hpq : p.pending_ with
      | nil =>
        simp only [hpq] at hcount hpend ⊢
        exact ⟨hcount, hpend⟩
      | cons ev rest =>
        have hev : ev.type = wxEventType.EVT_RENDER := hpend ev (by simp [hpq])
        simp only [hpq, List.length_cons] at hcount
        simp only [hpq, hev, if_true]
        refine ⟨?_, ?_⟩
        · simp only [List.countP_append, List.countP_cons, List.countP_nil, Call.isRefresh,
            Call.isPostEvent]
          simp only [if_true, Bool.false_eq_true, if_false]
          omega
        · intro x hx
          exact hpend x (by simp [hpq, hx])
    | PropertyChanged event =>
      simp only [VisualizationPanel.handle, Except.ok.injEq] at h
      subst h
      simp only [VisualizationPanel.onPropertyChanged, VisualizationPanel.queueRender]
      split
      · exact ⟨hcount, hpend⟩
      · refine ⟨?_, ?_⟩
        · simp only [List.countP_append, List.countP_cons, List.countP_nil, Call.isRefresh,
            Call.isPostEvent, List.length_append, List.length_singleton]
          simp only [if_true, Bool.false_eq_true, if_false]
          omega
        · intro x hx
          simp only [List.mem_append, List.mem_singleton] at hx
          rcases hx with hx | rfl
          · exact hpend x hx
          · rfl
    | RenderWindowMouseEvents event f =>
      simp only [VisualizationPanel.handle] at h
      cases ht : p.manager_.current_tool_ with
      | none => simp [onRenderWindowMouseEvents_of_no_tool T p event f ht] at h
      | some tool =>
        simp only [onRenderWindowMouseEvents_of_tool T p event f tool ht,
          Except.ok.injEq] at h
        subst h
        by_cases hr : Int.land (f tool event p.mouse_x_ p.mouse_y_) T.Render = 0 <;>
          by_cases hf : Int.land (f tool event p.mouse_x_ p.mouse_y_) T.Finished = 0
        all_goals
          refine ⟨?_, ?_⟩
          · simp only [hr, hf, ne_eq, not_true_eq_false, not_false_eq_true, if_true, if_false,
              List.countP_append, List.countP_cons, List.countP_nil, Call.isRefresh,
              Call.isPostEvent, List.length_append, List.length_singleton, List.length_nil,
              Bool.false_eq_true]
            omega
          · intro x hx
            simp only [hr, ne_eq, not_true_eq_false, not_false_eq_true, if_true, if_false,
              List.mem_append, List.mem_singleton, List.not_mem_nil, or_false] at hx
            first
              | exact hpend x hx
              | (rcases hx with hx | rfl
                 · exact hpend x hx
                 · rfl)
    | queueRender =>
      simp only [VisualizationPanel.handle, Except.ok.injEq] at h
      subst h
      simp only [VisualizationPanel.queueRender]
      refine ⟨?_, ?_⟩
      · simp only [List.countP_append, List.countP_cons, List.countP_nil, Call.isRefresh,
          Call.isPostEvent, List.length_append, List.length_singleton]
        simp only [if_true, Bool.false_eq_true, if_false]
        omega
      · intro x hx
        simp only [List.mem_append, List.mem_singleton] at hx
        rcases hx with hx | rfl
        · exact hpend x hx
        · rfl
    | ToolClicked _ => simp [Event.isQuiet] at hq
    | ViewSelected _ _ => simp [Event.isQuiet] at hq
    | PropertyChanging _ => simp [Event.isQuiet] at hq
    | PropertySelected _ => simp [Event.isQuiet] at hq
    | NewDisplay _ => simp [Event.isQuiet] at hq
    | DeleteDisplay => simp [Event.isQuiet] at hq
    | VisualizerStateChanged _ _ => simp [Event.isQuiet] at hq
    | addTool _ => simp [Event.isQuiet] at hq
    | setTool _ => simp [Event.isQuiet] at hq

/-- C8: `queueRender` only posts one `EVT_RENDER` event to the panel: it appends it to
the pending events, makes no other call, and leaves the render panel alone.  No handler
but the dispatch of a pending event calls `Refresh`: `onPropertyChanged` with a
property and a mouse event whose flags have `Tool::Render` return with the event
pending and no refresh made.  Dispatching a pending render event is what calls
`Refresh`, once, and in every state reached from construction the refreshes made and
the events still pending are as many as the events posted. -/
theorem queueRender_defers_refresh (T : ToolFlags) (manager : VisualizationManager)
    (tools : List String) (id : Int) (events : List Event) (p : VisualizationPanel)
    (h : (VisualizationPanel.construct manager tools id).run T events = Except.ok p) :
    (∀ q : VisualizationPanel,
      q.queueRender =
        { q with
          pending_ := q.pending_ ++ [{ type := wxEventType.EVT_RENDER, id := q.id_ }]
          calls := q.calls ++ [Call.wxPostEvent { type := wxEventType.EVT_RENDER, id := q.id_ }] } ∧
      q.callsSince q.queueRender =
        [Call.wxPostEvent { type := wxEventType.EVT_RENDER, id := q.id_ }] ∧
      q.queueRender.render_panel_camera_ = q.render_panel_camera_) ∧
    (∀ (q q' : VisualizationPanel) (e : Event), e ≠ Event.dispatchPending →
      q.handle T e = Except.ok q' →
      q'.calls = q.calls ++ q.callsSince q' ∧ (q.callsSince q').countP Call.isRefresh = 0) ∧
    (∀ (q : VisualizationPanel) (event : wxPropertyGridEvent), event.property ≠ none →
      q.callsSince (q.onPropertyChanged event) =
        [Call.propertyChanged event,
         Call.wxPostEvent { type := wxEventType.EVT_RENDER, id := q.id_ }] ∧
      (q.onPropertyChanged event).pending_ =
        q.pending_ ++ [{ type := wxEventType.EVT_RENDER, id := q.id_ }]) ∧
    (∀ (q : VisualizationPanel) (event : wxMouseEvent)
        (f : ToolPtr → wxMouseEvent → Int → Int → Int) (tool : ToolPtr),
      q.manager_.current_tool_ = some tool →
      Int.land (f tool event q.mouse_x_ q.mouse_y_) T.Render ≠ 0 →
      ∃ q', q.onRenderWindowMouseEvents T event f = Except.ok q' ∧
        q'.pending_ = q.pending_ ++ [{ type := wxEventType.EVT_RENDER, id := q.id_ }] ∧
        (q.callsSince q').countP Call.isRefresh = 0) ∧
    (∀ (q : VisualizationPanel) (event : wxCommandEvent) (rest : List wxCommandEvent),
      q.pending_ = event :: rest → event.type = wxEventType.EVT_RENDER →
      q.dispatchPending = { q with pending_ := rest, calls := q.calls ++ [Call.Refresh] }) ∧
    (p.calls.countP Call.isRefresh + p.pending_.length = p.calls.countP Call.isPostEvent ∧
      ∀ ev ∈ p.pending_, ev.type = wxEventType.EVT_RENDER) := by
  refine ⟨?_, ?_, ?_, ?_, ?_, ?_⟩
  · intro q
    exact ⟨rfl, by simp [VisualizationPanel.callsSince, VisualizationPanel.queueRender], rfl⟩
  · intro q q' e hne hq
    exact handle_no_refresh T q q' e hne hq
  · intro q event hprop
    cases hp : event.property with
    | none => exact absurd hp hprop
    | some pg =>
      simp [VisualizationPanel.onPropertyChanged, VisualizationPanel.queueRender,
        VisualizationPanel.callsSince, hp, List.append_assoc]
  · intro q event f tool ht hr
    refine ⟨_, onRenderWindowMouseEvents_of_tool T q event f tool ht, ?_, ?_⟩
    · simp [hr]
    · obtain ⟨_, h2⟩ := handle_no_refresh T q _ (Event.RenderWindowMouseEvents event f)
        (by simp) (by
          simp only [VisualizationPanel.handle]
          exact onRenderWindowMouseEvents_of_tool T q event f tool ht)
      exact h2
  · intro q event rest hpq hev
    simp [VisualizationPanel.dispatchPending, VisualizationPanel.onRender, hpq, hev]
  · refine run_induction T (fun _ => True)
      (fun p => p.calls.countP Call.isRefresh + p.pending_.length =
          p.calls.countP Call.isPostEvent ∧
        ∀ ev ∈ p.pending_, ev.type = wxEventType.EVT_RENDER)
      ?_ events _ p (fun _ _ => trivial) ?_ h
    · intro q e q' _ hq hh
      exact handle_render_account T q q' e hq hh
    · simp [VisualizationPanel.construct, List.countP_cons, Call.isRefresh, Call.isPostEvent]

/-- C8, at the example panel: a mouse event whose flags ask for a redraw leaves the
render event pending with no refresh made, and the refresh is made when the event is
dispatched. -/
theorem queueRender_defers_refresh_witness :
    examplePanel.run exampleFlags
        [Event.RenderWindowMouseEvents { x := 3, y := 4 } (fun _ _ _ _ => 1)] =
      Except.ok examplePanelQueued ∧
    examplePanelQueued.calls.countP Call.isRefresh + examplePanelQueued.pending_.length =
      examplePanelQueued.calls.countP Call.isPostEvent ∧
    examplePanelQueued.dispatchPending = examplePanelRefreshed :=
  ⟨rfl,
   (queueRender_defers_refresh exampleFlags exampleManager ["Move", "Select"] 7
      [Event.RenderWindowMouseEvents { x := 3, y := 4 } (fun _ _ _ _ => 1)]
      examplePanelQueued rfl).2.2.2.2.2.1,
   (queueRender_defers_refresh exampleFlags exampleManager ["Move", "Select"] 7
      [Event.RenderWindowMouseEvents { x := 3, y := 4 } (fun _ _ _ _ => 1)]
      examplePanelQueued rfl).2.2.2.2.1 examplePanelQueued
      { type := wxEventType.EVT_RENDER, id := 7 } [] rfl rfl⟩

/-! ## The stored mouse coordinates -/

/-- The loop of `setTool` does not read the stored mouse coordinates. -/
theorem setTool_for_withMouse (p : VisualizationPanel) (tool : Option ToolPtr) (count : Nat)
    (x y : Int) :
    ∀ remaining i, (p.withMouse x y).setTool_for tool count remaining i =
      (p.setTool_for tool count remaining i).withMouse x y := by
  intro remaining
  induction remaining with
  | zero => intro i; rfl
  | succ r ih =>
    intro i
    simp only [VisualizationPanel.setTool_for]
    split
    · split
      · rename_i h1 h2
        have h2' : p.manager_.getTool i = tool := h2
        simp only [h2', if_true]
        rfl
      · rename_i h1 h2
        have h2' : ¬ p.manager_.getTool i = tool := h2
        simp only [h2', if_false]
        exact ih (i + 1)
    · rfl

/-- The loop of `onNewDisplay` does not read the stored mouse coordinates. -/
theorem onNewDisplay_while_withMouse (x y : Int) :
    ∀ (dialog : List DialogOutcome) (p : VisualizationPanel),
      (p.withMouse x y).onNewDisplay_while dialog =
        ((p.onNewDisplay_while dialog).1.withMouse x y, (p.onNewDisplay_while dialog).2) := by
  intro dialog
  induction dialog with
  | nil => intro p; rfl
  | cons d later ih =>
    intro p
    simp only [VisualizationPanel.onNewDisplay_while]
    by_cases hok : d.ShowModal = wxOK
    · simp only [hok, if_true]
      have hm : (p.withMouse x y).manager_ = p.manager_ := rfl
      by_cases hfound : p.manager_.getVisualizer d.getVisualizerName = none
      · simp only [hm, hfound, ne_eq, not_true_eq_false, if_false]
        cases (p.manager_.createVisualizer d.getTypeName d.getVisualizerName true true).1 <;> rfl
      · simp only [hm, hfound, ne_eq, not_false_eq_true, if_true]
        exact ih
          { p with calls := p.calls ++ [Call.ShowModal wxOK] ++
              [Call.getVisualizer d.getVisualizerName
                (p.manager_.getVisualizer d.getVisualizerName)] ++
              [Call.wxMessageBox "A visualizer with that name already exists!"
                "Invalid name"] }
    · simp only [hok, if_false]
      rfl

/-- The handler `onNewDisplay` does not read the stored mouse coordinates. -/
theorem onNewDisplay_withMouse (p : VisualizationPanel) (dialog : List DialogOutcome)
    (x y : Int) :
    (p.withMouse x y).onNewDisplay dialog =
      ((p.onNewDisplay dialog).1.withMouse x y, (p.onNewDisplay dialog).2) :=
  onNewDisplay_while_withMouse x y dialog
    { p with calls := p.calls ++ [Call.NewDisplayDialog p.manager_.registered_types_] }

/-- No handler but `onRenderWindowMouseEvents` reads the stored mouse coordinates: with
other coordinates stored it does the same, and leaves those other coordinates. -/
theorem handle_withMouse (T : ToolFlags) (p : VisualizationPanel) (e : Event) (x y : Int)
    (he : e.mouse? = none) :
    (p.withMouse x y).handle T e = (p.handle T e).map (fun r => r.withMouse x y) := by
  cases e with
  | RenderWindowMouseEvents event f => simp [Event.mouse?] at he
  | dispatchPending =>
    simp only [VisualizationPanel.handle, Except.map, VisualizationPanel.dispatchPending]
    have hp : (p.withMouse x y).pending_ = p.pending_ := rfl
    rw [hp]
    cases p.pending_ with
    | nil => rfl
    | cons ev rest =>
      dsimp only
      split <;> rfl
  | ToolClicked event => rfl
  | ViewSelected selection event =>
    simp only [VisualizationPanel.handle]
    by_cases hv : ∃ v : View, selection = v.toInt
    · obtain ⟨v, hv⟩ := hv
      cases v <;> simp only [View.toInt] at hv <;> subst hv <;>
        cases hc : p.current_camera_ <;>
        simp [VisualizationPanel.onViewSelected, VisualizationPanel.withMouse, View.toInt,
          Except.map, hc]
    · push_neg at hv
      obtain ⟨h0, h1, h2⟩ := (View.forall_iff _).1 hv
      simp only [View.toInt] at h0 h1 h2
      cases hc : p.current_camera_ <;>
        simp [VisualizationPanel.onViewSelected, VisualizationPanel.withMouse, View.toInt,
          Except.map, hc, h0, h1, h2]
  | PropertyChanging event =>
    simp only [VisualizationPanel.handle, Except.map, VisualizationPanel.onPropertyChanging]
    cases event.property <;> rfl
  | PropertyChanged event =>
    simp only [VisualizationPanel.handle, Except.map, VisualizationPanel.onPropertyChanged]
    cases event.property <;> rfl
  | PropertySelected event =>
    simp only [VisualizationPanel.handle, Except.map, onPropertySelected_eq]
    cases event.visualizer with
    | none => rfl
    | some v =>
      have hm : (p.withMouse x y).manager_ = p.manager_ := rfl
      simp only [hm]
      split <;> rfl
  | NewDisplay dialog =>
    simp only [VisualizationPanel.handle]
    rw [onNewDisplay_withMouse]
    rcases p.onNewDisplay dialog with ⟨q, _ | halt⟩ <;> rfl
  | DeleteDisplay =>
    simp only [VisualizationPanel.handle, Except.map, VisualizationPanel.onDeleteDisplay]
    have hsel : (p.withMouse x y).selected_visualizer_ = p.selected_visualizer_ := rfl
    rw [hsel]
    cases p.selected_visualizer_ <;> rfl
  | VisualizerStateChanged visualizer property =>
    simp only [VisualizationPanel.handle, VisualizationPanel.onVisualizerStateChanged]
    cases property with
    | none => rfl
    | some pr =>
      dsimp only
      split <;> rfl
  | addTool name => rfl
  | setTool tool =>
    simp only [VisualizationPanel.handle, Except.map, VisualizationPanel.setTool]
    exact congrArg Except.ok (setTool_for_withMouse p tool _ x y _ _)
  | queueRender => rfl

/-- What one handled event does to the stored mouse coordinates and to the calls of
`processMouseEvent`: a mouse event stores its coordinates and passes the coordinates
stored before; every other event leaves both alone. -/
theorem handle_mouse_step (T : ToolFlags) (p p' : VisualizationPanel) (e : Event)
    (h : p.handle T e = Except.ok p') :
    p'.calls.filterMap Call.mouse? =
      p.calls.filterMap Call.mouse? ++ expectedLast p.mouse_x_ p.mouse_y_ e.mouse?.toList ∧
    (p'.mouse_x_, p'.mouse_y_) = lastCoordinates p.mouse_x_ p.mouse_y_ e.mouse?.toList := by
  by_cases hq : e.isQuiet = true
  · obtain ⟨_, hx, hy, made, h1, h2⟩ := handle_quiet T p p' e hq h
    obtain ⟨_, _, q3⟩ := quiet_calls made h2
    have hm : e.mouse? = none := by
      cases e <;> first | rfl | simp [Event.isQuiet] at hq
    simp [hm, h1, q3, hx, hy, expectedLast, lastCoordinates]
  · cases e with
    | dispatchPending =>
      simp only [VisualizationPanel.handle, Except.ok.injEq] at h
      subst h
      simp only [VisualizationPanel.dispatchPending, VisualizationPanel.onRender]
      cases p.pending_ with
      | nil => simp [Event.mouse?, expectedLast, lastCoordinates]
      | cons ev rest =>
        dsimp only
        split <;> simp [Event.mouse?, expectedLast, lastCoordinates, Call.mouse?]
    | PropertyChanged event =>
      simp only [VisualizationPanel.handle, Except.ok.injEq] at h
      subst h
      simp only [VisualizationPanel.onPropertyChanged, VisualizationPanel.queueRender]
      cases event.property <;>
        simp [Event.mouse?, expectedLast, lastCoordinates, Call.mouse?]
    | RenderWindowMouseEvents event f =>
      simp only [VisualizationPanel.handle] at h
      cases ht : p.manager_.current_tool_ with
      | none => simp [onRenderWindowMouseEvents_of_no_tool T p event f ht] at h
      | some tool =>
        simp only [onRenderWindowMouseEvents_of_tool T p event f tool ht,
          Except.ok.injEq] at h
        subst h
        by_cases hr : Int.land (f tool event p.mouse_x_ p.mouse_y_) T.Render = 0 <;>
          by_cases hf : Int.land (f tool event p.mouse_x_ p.mouse_y_) T.Finished = 0 <;>
          simp [hr, hf, Event.mouse?, expectedLast, lastCoordinates, Call.mouse?]
    | queueRender =>
      simp only [VisualizationPanel.handle, Except.ok.injEq] at h
      subst h
      simp [VisualizationPanel.queueRender, Event.mouse?, expectedLast, lastCoordinates,
        Call.mouse?]
    | ToolClicked _ => simp [Event.isQuiet] at hq
    | ViewSelected _ _ => simp [Event.isQuiet] at hq
    | PropertyChanging _ => simp [Event.isQuiet] at hq
    | PropertySelected _ => simp [Event.isQuiet] at hq
    | NewDisplay _ => simp [Event.isQuiet] at hq
    | DeleteDisplay => simp [Event.isQuiet] at hq
    | VisualizerStateChanged _ _ => simp [Event.isQuiet] at hq
    | addTool _ => simp [Event.isQuiet] at hq
    | setTool _ => simp [Event.isQuiet] at hq

/-- A run passes to the tools, mouse event by mouse event, the coordinates of the mouse
event before, and ends with the coordinates of the last mouse event stored. -/
theorem run_mouse (T : ToolFlags) :
    ∀ (events : List Event) (q q' : VisualizationPanel),
      q.run T events = Except.ok q' →
      q'.calls.filterMap Call.mouse? =
        q.calls.filterMap Call.mouse? ++
          expectedLast q.mouse_x_ q.mouse_y_ (events.filterMap Event.mouse?) ∧
      (q'.mouse_x_, q'.mouse_y_) =
        lastCoordinates q.mouse_x_ q.mouse_y_ (events.filterMap Event.mouse?) := by
  intro events
  induction events with
  | nil =>
    intro q q' h
    simp only [VisualizationPanel.run, Except.ok.injEq] at h
    subst h
    simp [expectedLast, lastCoordinates]
  | cons e es ih =>
    intro q q' h
    simp only [VisualizationPanel.run] at h
    cases hr : q.handle T e with
    | error halt => simp [hr] at h
    | ok r =>
      simp only [hr] at h
      obtain ⟨s1, s2⟩ := handle_mouse_step T q r e hr
      obtain ⟨i1, i2⟩ := ih r q' h
      cases hm : e.mouse? with
      | none =>
        simp only [hm, Option.toList, expectedLast, lastCoordinates, List.append_nil,
          Prod.mk.injEq] at s1 s2
        simp only [List.filterMap_cons, hm]
        rw [i1, i2, s1, s2.1, s2.2]
        exact ⟨rfl, rfl⟩
      | some ev =>
        simp only [hm, Option.toList, expectedLast, lastCoordinates, Prod.mk.injEq] at s1 s2
        simp only [List.filterMap_cons, hm, expectedLast, lastCoordinates]
        rw [i1, i2, s1, s2.1, s2.2]
        simp

/-- A run of mouse events from a state whose manager has a current and a default tool
never halts. -/
theorem run_mouse_ok (T : ToolFlags) :
    ∀ (events : List Event) (q : VisualizationPanel),
      (∀ e ∈ events, e.mouse? ≠ none) →
      q.manager_.current_tool_ ≠ none → q.manager_.default_tool_ ≠ none →
      ∃ q', q.run T events = Except.ok q' := by
  intro events
  induction events with
  | nil => intro q _ _ _; exact ⟨q, rfl⟩
  | cons e es ih =>
    intro q hE hc hd
    have he := hE e (List.mem_cons_self _ _)
    cases e with
    | RenderWindowMouseEvents event f =>
      obtain ⟨tool, ht⟩ := Option.ne_none_iff_exists'.1 hc
      simp only [VisualizationPanel.run, VisualizationPanel.handle,
        onRenderWindowMouseEvents_of_tool T q event f tool ht]
      apply ih _ (fun x hx => hE x (List.mem_cons_of_mem _ hx))
      · dsimp only
        split
        · exact hd
        · exact hc
      · dsimp only
        split
        · exact hd
        · exact hd
    | _ => simp [Event.mouse?] at he

/-- C7: `onRenderWindowMouseEvents` stores the coordinates of its event and passes the
coordinates stored before it to the tool.  Over a run from construction the tools are
passed, for the k-th mouse event, the coordinates of the mouse event before it, and
(0, 0) for the first, whatever other events come in between; the coordinates stored at
the end are those of the last mouse event.  Every other handler leaves the stored
coordinates as they are and does the same whatever they are.  A run of mouse events
never halts when the manager has a current and a default tool. -/
theorem mouse_coordinates_follow_events (T : ToolFlags) (manager : VisualizationManager)
    (tools : List String) (id : Int) (events : List Event) (p : VisualizationPanel)
    (h : (VisualizationPanel.construct manager tools id).run T events = Except.ok p) :
    (p.calls.filterMap Call.mouse? = expectedLast 0 0 (events.filterMap Event.mouse?) ∧
      (p.mouse_x_, p.mouse_y_) = lastCoordinates 0 0 (events.filterMap Event.mouse?)) ∧
    (∀ (q : VisualizationPanel) (event : wxMouseEvent)
        (f : ToolPtr → wxMouseEvent → Int → Int → Int) (tool : ToolPtr),
      q.manager_.current_tool_ = some tool →
      ∃ q', q.onRenderWindowMouseEvents T event f = Except.ok q' ∧
        q'.mouse_x_ = event.x ∧ q'.mouse_y_ = event.y ∧
        q'.calls = q.calls ++ q.callsSince q' ∧
        (q.callsSince q').filterMap Call.mouse? = [(event, q.mouse_x_, q.mouse_y_)] ∧
        Call.processMouseEvent tool event q.mouse_x_ q.mouse_y_ ∈ q.callsSince q') ∧
    (∀ (q q' : VisualizationPanel) (e : Event), e.mouse? = none →
      q.handle T e = Except.ok q' →
      q'.mouse_x_ = q.mouse_x_ ∧ q'.mouse_y_ = q.mouse_y_ ∧
      q'.calls.filterMap Call.mouse? = q.calls.filterMap Call.mouse?) ∧
    (∀ (q : VisualizationPanel) (e : Event) (x y : Int), e.mouse? = none →
      (q.withMouse x y).handle T e = (q.handle T e).map (fun r => r.withMouse x y)) ∧
    (∀ mouse_events : List Event, (∀ e ∈ mouse_events, e.mouse? ≠ none) →
      manager.current_tool_ ≠ none → manager.default_tool_ ≠ none →
      ∃ p', (VisualizationPanel.construct manager tools id).run T mouse_events =
        Except.ok p') := by
  refine ⟨?_, ?_, ?_, ?_, ?_⟩
  · have := run_mouse T events _ p h
    simpa [VisualizationPanel.construct, Call.mouse?] using this
  · intro q event f tool ht
    refine ⟨_, onRenderWindowMouseEvents_of_tool T q event f tool ht, rfl, rfl, ?_, ?_, ?_⟩
    · simp [VisualizationPanel.callsSince, List.append_assoc]
    · by_cases hr : Int.land (f tool event q.mouse_x_ q.mouse_y_) T.Render = 0 <;>
        by_cases hf : Int.land (f tool event q.mouse_x_ q.mouse_y_) T.Finished = 0 <;>
        simp [VisualizationPanel.callsSince, List.append_assoc, hr, hf, Call.mouse?]
    · simp [VisualizationPanel.callsSince, List.append_assoc]
  · intro q q' e he hq
    obtain ⟨s1, s2⟩ := handle_mouse_step T q q' e hq
    simp only [he, Option.toList, expectedLast, lastCoordinates, List.append_nil,
      Prod.mk.injEq] at s1 s2
    exact ⟨s2.1, s2.2, s1⟩
  · intro q e x y he
    exact handle_withMouse T q e x y he
  · intro mouse_events hme hc hd
    exact run_mouse_ok T mouse_events _ hme hc hd

/-- C7, at the example panel: a mouse event at (3, 4), the choice of the FPS view, and
a mouse event at (5, 6). -/
theorem mouse_coordinates_follow_events_witness :
    examplePanel.run exampleFlags
        [Event.RenderWindowMouseEvents { x := 3, y := 4 } (fun _ _ _ _ => 0),
         Event.ViewSelected 1 choiceEvent,
         Event.RenderWindowMouseEvents { x := 5, y := 6 } (fun _ _ _ _ => 0)] =
      Except.ok examplePanelMoved ∧
    examplePanelMoved.calls.filterMap Call.mouse? =
      [({ x := 3, y := 4 }, 0, 0), ({ x := 5, y := 6 }, 3, 4)] ∧
    (examplePanelMoved.mouse_x_, examplePanelMoved.mouse_y_) = (5, 6) :=
  ⟨rfl,
   (mouse_coordinates_follow_events exampleFlags exampleManager ["Move", "Select"] 7
      [Event.RenderWindowMouseEvents { x := 3, y := 4 } (fun _ _ _ _ => 0),
       Event.ViewSelected 1 choiceEvent,
       Event.RenderWindowMouseEvents { x := 5, y := 6 } (fun _ _ _ _ => 0)]
      examplePanelMoved rfl).1.1,
   (mouse_coordinates_follow_events exampleFlags exampleManager ["Move", "Select"] 7
      [Event.RenderWindowMouseEvents { x := 3, y := 4 } (fun _ _ _ _ => 0),
       Event.ViewSelected 1 choiceEvent,
       Event.RenderWindowMouseEvents { x := 5, y := 6 } (fun _ _ _ _ => 0)]
      examplePanelMoved rfl).1.2⟩

end ogre_vis
